import Mathlib

/-!
Verification development for the env360 backend (Python/FastAPI/SQLAlchemy).

The definitions below are a shallow embedding of the repository's code:
SQLAlchemy tables become lists of row structures inside an explicit `DBState`,
async resolvers become pure functions threading that state, and a Python
exception becomes `Except.error`.  Library primitives that the code calls
(`hashlib.sha256`, `json.loads`, the Kubernetes client) are taken as function
parameters, since only their input/output behaviour matters here.
Rows keep only the columns the embedded code paths read or write.
-/

namespace Env360

/-- Python truthiness of a string (`""` is falsy). -/
def pyTruthy (s : String) : Bool := s ≠ ""

/-- Python truthiness of an optional string (`None` and `""` are falsy). -/
def pyTruthyOpt : Option String → Bool
  | none => false
  | some s => pyTruthy s

/-- `a or b` for an optional string against a string default, as Python
evaluates it (`None` and `""` both fall through to the default). -/
def pyOrStr (a : Option String) (b : String) : String :=
  match a with
  | none => b
  | some s => if s ≠ "" then s else b

/-! ## A small JSON value type, mirroring what `json.dumps` can receive here -/

inductive Json where
  | null : Json
  | bool (b : Bool) : Json
  | num (n : Int) : Json
  | str (s : String) : Json
  | arr (xs : List Json) : Json
  | obj (kvs : List (String × Json)) : Json
  deriving Inhabited

/-- One hexadecimal digit. -/
def hexDigit (n : Nat) : Char :=
  if n < 10 then Char.ofNat (48 + n) else Char.ofNat (87 + (n % 16))

/-- Four-digit lowercase hex, as in `\uXXXX` escapes. -/
def hex4 (n : Nat) : String :=
  String.mk [hexDigit (n / 4096 % 16), hexDigit (n / 256 % 16),
             hexDigit (n / 16 % 16), hexDigit (n % 16)]

/-- Escape one character the way `json.dumps` (default `ensure_ascii=True`)
does inside a string literal. -/
def escapeJsonChar (c : Char) : String :=
  if c = '"' then "\\\""
  else if c = '\\' then "\\\\"
  else if c = '\n' then "\\n"
  else if c = '\t' then "\\t"
  else if c = '\r' then "\\r"
  else if c.toNat < 32 then "\\u" ++ hex4 c.toNat
  else if c.toNat < 127 then String.mk [c]
  else if c.toNat < 65536 then "\\u" ++ hex4 c.toNat
  else
    let v := c.toNat - 65536
    "\\u" ++ hex4 (55296 + v / 1024) ++ "\\u" ++ hex4 (56320 + v % 1024)

/-- A JSON string literal as `json.dumps` renders it. -/
def renderJsonString (s : String) : String :=
  "\"" ++ String.join (s.data.map escapeJsonChar) ++ "\""

/-- Insert a pair into a key-sorted list, after any pairs of equal key
(keeping the sort stable). -/
def insertKv (x : String × Json) : List (String × Json) → List (String × Json)
  | [] => [x]
  | y :: ys => if y.1 < x.1 then y :: insertKv x ys else x :: y :: ys

/-- Sort the key/value pairs of an object by key (Python `sort_keys=True`;
string comparison agrees with Python's for the ASCII keys used here). -/
def sortKvs : List (String × Json) → List (String × Json)
  | [] => []
  | x :: xs => insertKv x (sortKvs xs)

mutual

/-- Recursively sort every object's keys (the effect of `sort_keys=True`). -/
def sortJson : Json → Json
  | .null => .null
  | .bool b => .bool b
  | .num n => .num n
  | .str s => .str s
  | .arr xs => .arr (sortJsonList xs)
  | .obj kvs => .obj (sortKvs (sortJsonKvs kvs))

def sortJsonList : List Json → List Json
  | [] => []
  | x :: xs => sortJson x :: sortJsonList xs

def sortJsonKvs : List (String × Json) → List (String × Json)
  | [] => []
  | (k, v) :: kvs => (k, sortJson v) :: sortJsonKvs kvs

end

mutual

/-- Render a JSON value with compact separators `(",", ":")`, keys in the
order in which they stand. -/
def renderJsonCompact : Json → String
  | .null => "null"
  | .bool b => if b then "true" else "false"
  | .num n => toString n
  | .str s => renderJsonString s
  | .arr xs => "[" ++ renderJsonArr xs ++ "]"
  | .obj kvs => "\x7b" ++ renderJsonObj kvs ++ "\x7d"

def renderJsonArr : List Json → String
  | [] => ""
  | [x] => renderJsonCompact x
  | x :: y :: xs => renderJsonCompact x ++ "," ++ renderJsonArr (y :: xs)

def renderJsonObj : List (String × Json) → String
  | [] => ""
  | [(k, v)] => renderJsonString k ++ ":" ++ renderJsonCompact v
  | (k, v) :: p :: kvs =>
      renderJsonString k ++ ":" ++ renderJsonCompact v ++ "," ++
        renderJsonObj (p :: kvs)

end

/-- Render a JSON value the way
`json.dumps(x, sort_keys=True, separators=(",", ":"))` does. -/
def renderJson (j : Json) : String :=
  renderJsonCompact (sortJson j)

mutual

/-- Render a JSON value the way a bare `json.dumps(x)` does
(default separators `", "` / `": "`, insertion order kept). -/
def renderJsonDefault : Json → String
  | .null => "null"
  | .bool b => if b then "true" else "false"
  | .num n => toString n
  | .str s => renderJsonString s
  | .arr xs => "[" ++ renderJsonDefaultArr xs ++ "]"
  | .obj kvs => "\x7b" ++ renderJsonDefaultObj kvs ++ "\x7d"

def renderJsonDefaultArr : List Json → String
  | [] => ""
  | [x] => renderJsonDefault x
  | x :: y :: xs => renderJsonDefault x ++ ", " ++ renderJsonDefaultArr (y :: xs)

def renderJsonDefaultObj : List (String × Json) → String
  | [] => ""
  | [(k, v)] => renderJsonString k ++ ": " ++ renderJsonDefault v
  | (k, v) :: p :: kvs =>
      renderJsonString k ++ ": " ++ renderJsonDefault v ++ ", " ++
        renderJsonDefaultObj (p :: kvs)

end

/-- Set a key in an association list as a Python dict assignment does:
replace the value in place if the key exists, else append. -/
def alistSet (m : List (String × Json)) (k : String) (v : Json) :
    List (String × Json) :=
  match m with
  | [] => [(k, v)]
  | (k0, v0) :: rest =>
      if k0 = k then (k0, v) :: rest else (k0, v0) :: alistSet rest k v

/-- Dict lookup (`m[k]` / `m.get(k)`). -/
def alistGet (m : List (String × Json)) (k : String) : Option Json :=
  match m with
  | [] => none
  | (k0, v0) :: rest => if k0 = k then some v0 else alistGet rest k

/-- `str.lower()` (ASCII range, which covers the inputs used here). -/
def pyLower (s : String) : String :=
  String.mk (s.data.map Char.toLower)

/-- ASCII whitespace, for `int()`'s stripping. -/
def isPyWs (c : Char) : Bool :=
  c = ' ' ∨ c = '\t' ∨ c = '\n' ∨ c = '\r'

/-- Python `int(s)`: surrounding whitespace, an optional sign, then at least
one decimal digit (digit-group underscores are not modelled). -/
def pyInt (s : String) : Option Int :=
  let core := ((s.data.dropWhile isPyWs).reverse.dropWhile isPyWs).reverse
  match core with
  | [] => none
  | c :: rest =>
      let (neg, digits) :=
        if c = '-' then (true, rest)
        else if c = '+' then (false, rest)
        else (false, c :: rest)
      if digits = [] then none
      else if digits.all Char.isDigit then
        let n : Nat := digits.foldl (fun acc d => acc * 10 + (d.toNat - 48)) 0
        some (if neg then -(n : Int) else (n : Int))
      else none

/-! ## Data model (app/models)

Each structure keeps the columns that the embedded code paths read or write;
`datetime` columns appear as their `isoformat()` strings.  A table is a list
of rows inside `DBState`; `next_id` models the generation of fresh primary keys and
the monotone `created_at` order of inserts. -/

/-- `app.models.permission.PermissionScope` (string enum). -/
inductive PermissionScope where
  | project | environment | service
  deriving DecidableEq

/-- `.value` of a `PermissionScope` member. -/
def PermissionScope.value : PermissionScope → String
  | .project => "project"
  | .environment => "environment"
  | .service => "service"

/-- `PermissionScope(s)` by value; `none` models the `ValueError`. -/
def PermissionScope.ofValue (s : String) : Option PermissionScope :=
  if s = "project" then some .project
  else if s = "environment" then some .environment
  else if s = "service" then some .service
  else none

/-- `app.models.permission.PermissionAction` (string enum). -/
inductive PermissionAction where
  | read | write | delete | admin
  deriving DecidableEq

/-- `.value` of a `PermissionAction` member. -/
def PermissionAction.value : PermissionAction → String
  | .read => "read"
  | .write => "write"
  | .delete => "delete"
  | .admin => "admin"

/-- The caller dict produced by `get_current_user`
(`{'id', 'is_admin', 'is_super_admin', ...}`; `get('id')` can yield `None`). -/
structure Caller where
  id : Option String
  is_admin : Bool
  is_super_admin : Bool
  deriving DecidableEq

/-- Row of `projects` (`app.models.project.Project`). -/
structure ProjectRow where
  id : String
  name : String
  description : Option String := none
  owner_id : Option String := none
  created_at : Option String := none
  updated_at : Option String := none
  deleted_at : Option String := none
  deriving DecidableEq

/-- Row of `environments` (`app.models.environment.Environment`). -/
structure EnvironmentRow where
  id : String
  name : String
  project_id : String
  cluster_id : Option String := none
  deleted_at : Option String := none
  deriving DecidableEq

/-- Row of `services` (`app.models.service.Service`).  Note: the model has
**no** `environment_id` column (environments are linked through the
`service_environments` association table). -/
structure ServiceRow where
  id : String
  name : String
  description : Option String := none
  stype : Option String := none
  project_id : String
  owner : Option String := none
  status : Option String := none
  created_at : Option String := none
  updated_at : Option String := none
  deleted_at : Option String := none
  deriving DecidableEq

/-- Row of `service_configs` (`app.models.config.ServiceConfig`). -/
structure ServiceConfigRow where
  service_id : String
  key : String
  value : Option String := none
  deleted_at : Option String := none
  deriving DecidableEq

/-- Row of `environment_variables` or `secrets` (`app.models.variable`). -/
structure VariableRow where
  scope : PermissionScope
  resource_id : String
  key : String
  value : Option String := none
  deleted_at : Option String := none
  deriving DecidableEq

/-- Row of `service_versions` (`app.models.versioning.ServiceVersion`);
`created_seq` stands for `created_at` (inserts get increasing values). -/
structure ServiceVersionRow where
  id : String
  service_id : String
  version_label : String
  config_hash : String
  spec_json : Option String := none
  created_seq : Nat
  deriving DecidableEq

/-- Row of `deployments` (`app.models.versioning.Deployment`). -/
structure DeploymentRow where
  id : String
  service_id : String
  version_id : String
  environment_id : Option String := none
  status : String
  deriving DecidableEq

/-- Row of `resource_permissions` (`app.models.permission.ResourcePermission`). -/
structure ResourcePermissionRow where
  id : String
  user_id : String
  scope : PermissionScope
  resource_id : String
  actions : List String
  granted_by : String := ""
  deriving DecidableEq

/-- Row of `environment_configs` (`app.models.config.EnvironmentConfig`). -/
structure EnvironmentConfigRow where
  environment_id : String
  key : String
  value : Option String := none
  config_data : Option Json := none
  workflow_uuid : Option String := none
  deleted_at : Option String := none

/-- The database state threaded through the embedded resolvers. -/
structure DBState where
  projects : List ProjectRow := []
  environments : List EnvironmentRow := []
  services : List ServiceRow := []
  service_configs : List ServiceConfigRow := []
  environment_variables : List VariableRow := []
  secrets : List VariableRow := []
  service_versions : List ServiceVersionRow := []
  deployments : List DeploymentRow := []
  resource_permissions : List ResourcePermissionRow := []
  environment_configs : List EnvironmentConfigRow := []
  next_id : Nat := 0

/-- `select(Project).where(Project.id == pid)` + `scalar_one_or_none()`
(primary keys are unique, so the first match is the single match). -/
def findProject (st : DBState) (pid : String) : Option ProjectRow :=
  (st.projects.filter (fun p => p.id = pid)).head?

/-- `select(Environment).where(Environment.id == eid)` + `scalar_one_or_none()`. -/
def findEnvironment (st : DBState) (eid : String) : Option EnvironmentRow :=
  (st.environments.filter (fun e => e.id = eid)).head?

/-- `select(Service).where(Service.id == sid)` + `scalar_one_or_none()`. -/
def findService (st : DBState) (sid : String) : Option ServiceRow :=
  (st.services.filter (fun s => s.id = sid)).head?

/-- The `ResourcePermission` rows matching `(user_id, scope, resource_id)`. -/
def permRowsFor (st : DBState) (uid : String) (scope : PermissionScope)
    (rid : String) : List ResourcePermissionRow :=
  st.resource_permissions.filter
    (fun p => p.user_id = uid ∧ p.scope = scope ∧ p.resource_id = rid)

/-- `action_str in (perm.actions or [])` over a list of permission rows. -/
def anyActionIn (perms : List ResourcePermissionRow) (action_str : String) :
    Bool :=
  perms.any (fun p => p.actions.contains action_str)

/-! ## Permission evaluator (app/core/dependencies.py) -/

/-- The ownership shortcut of `check_resource_permission` (lines 292-323):
walk the scope up to the owning project and compare `owner_id`. -/
def ownershipShortcut (st : DBState) (uid : String) (scope : PermissionScope)
    (resource_id : String) : Bool :=
  match scope with
  | .project =>
      match findProject st resource_id with
      | some p => p.owner_id = some uid
      | none => false
  | .environment =>
      match findEnvironment st resource_id with
      | some e =>
          if pyTruthy e.project_id then
            match findProject st e.project_id with
            | some p => p.owner_id = some uid
            | none => false
          else false
      | none => false
  | .service =>
      match findService st resource_id with
      | some s =>
          if pyTruthy s.project_id then
            match findProject st s.project_id with
            | some p => p.owner_id = some uid
            | none => false
          else false
      | none => false

/-- `check_resource_permission(user, action, scope, resource_id, db)`.

`Except.error` models a raised exception.  In the `scope == SERVICE`
hierarchical-inheritance block the source evaluates `service.environment_id`,
but the `Service` model defines no such attribute, so reaching that line with
a loaded service raises `AttributeError`. -/
def check_resource_permission (user : Caller) (action : PermissionAction)
    (scope : PermissionScope) (resource_id : String) (st : DBState) :
    Except String Bool :=
  if user.is_admin || user.is_super_admin then .ok true
  else
    match user.id with
    | none => .ok false
    | some uid =>
        let action_str := action.value
        if ownershipShortcut st uid scope resource_id then .ok true
        else if anyActionIn (permRowsFor st uid scope resource_id) action_str
        then .ok true
        else
          match scope with
          | .service =>
              match findService st resource_id with
              | some _ =>
                  .error "AttributeError: 'Service' object has no attribute 'environment_id'"
              | none => .ok false
          | .environment =>
              match findEnvironment st resource_id with
              | some e =>
                  if pyTruthy e.project_id then
                    .ok (anyActionIn
                      (permRowsFor st uid .project e.project_id) action_str)
                  else .ok false
              | none => .ok false
          | .project => .ok false

/-- `can_grant_resource_permission(user, scope, resource_id, db)`. -/
def can_grant_resource_permission (user : Caller) (scope : PermissionScope)
    (resource_id : String) (st : DBState) : Bool :=
  if user.is_admin || user.is_super_admin then true
  else
    match user.id with
    | none => false
    | some uid => ownershipShortcut st uid scope resource_id

/-! ## The `resource_permissions` GraphQL query (schema.py 1982-2063) -/

/-- `resource_permissions(skip, limit, user_id, scope, resource_id)`.
Returns the listed rows, or `Except.error` for a raised exception. -/
def resource_permissions (current_user : Option Caller) (skip limit : Nat)
    (user_id scope resource_id : Option String) (st : DBState) :
    Except String (List ResourcePermissionRow) := do
  match current_user with
  | none => throw "Authentication required"
  | some u =>
    -- can_view_all: only probed when both scope and resource_id are truthy;
    -- a scope-parse failure is swallowed (`except Exception: pass`).
    let can_view_all : Bool :=
      if pyTruthyOpt scope && pyTruthyOpt resource_id then
        match PermissionScope.ofValue (pyLower (scope.getD "")) with
        | some scope_enum =>
            can_grant_resource_permission u scope_enum (resource_id.getD "") st
        | none => false
      else false
    let user_id ←
      if !u.is_admin && !can_view_all then do
        if pyTruthyOpt user_id && user_id ≠ u.id then
          throw "You can only view your own permissions"
        -- Only filter by user_id if we're not viewing all permissions for a
        -- resource (the source skips the assignment when both scope and
        -- resource_id are given).
        if !(pyTruthyOpt scope && pyTruthyOpt resource_id) then
          pure u.id
        else
          pure user_id
      else
        pure user_id
    let rows := st.resource_permissions
    let rows :=
      if pyTruthyOpt user_id && !can_view_all then
        rows.filter (fun p => p.user_id = user_id.getD "")
      else rows
    let rows ←
      match scope with
      | some s =>
          if pyTruthy s then
            match PermissionScope.ofValue (pyLower s) with
            | some scope_enum =>
                pure (rows.filter (fun p => p.scope = scope_enum))
            | none =>
                throw ("Invalid scope: " ++ s ++
                  ". Must be 'project', 'environment', or 'service'")
          else pure rows
      | none => pure rows
    let rows :=
      if pyTruthyOpt resource_id then
        rows.filter (fun p => p.resource_id = resource_id.getD "")
      else rows
    let rows := (rows.drop skip).take limit
    -- Defensive re-filter on (scope, resource_id) before returning.
    let rows :=
      if pyTruthyOpt scope && pyTruthyOpt resource_id then
        match PermissionScope.ofValue (pyLower (scope.getD "")) with
        | some scope_enum =>
            rows.filter
              (fun p => p.scope = scope_enum ∧ p.resource_id = resource_id.getD "")
        | none => rows
      else rows
    pure rows

/-! ## Version engine (schema.py): publish and direct version creation -/

/-- Result object of the `publish_service_version` mutation. -/
structure PublishVersionResult where
  ok : Bool
  message : String
  version : Option ServiceVersionRow := none
  deriving DecidableEq

/-- One step of the max-`created_seq` scan behind `pickLatest`. -/
def pickStep : Option ServiceVersionRow → ServiceVersionRow →
    Option ServiceVersionRow
  | none, v => some v
  | some a, v => if v.created_seq > a.created_seq then some v else some a

/-- `ORDER BY created_at DESC` + `.first()`: the row with the greatest
`created_seq` (the first-listed one on ties). -/
def pickLatest (l : List ServiceVersionRow) : Option ServiceVersionRow :=
  l.foldl pickStep none

/-- The versions of one service (`WHERE service_id == sid`). -/
def versionsOf (st : DBState) (sid : String) : List ServiceVersionRow :=
  st.service_versions.filter (fun v => v.service_id = sid)

/-- The nested `parse_num` of `publish_service_version` (and of
`get_latest_version_label`): `int(str(v).lstrip('vV'))`, with `0` for a
falsy input or a parse failure. -/
def parse_num (v : Option String) : Int :=
  match v with
  | none => 0
  | some s =>
      if s = "" then 0
      else
        match pyInt (String.mk (s.data.dropWhile (fun c => c = 'v' ∨ c = 'V'))) with
        | some n => n
        | none => 0

/-- `full_cfg_map`: the service's config rows as a dict, with a JSON-encoded
`ports` string parsed into native values (parse failures keep the string). -/
def publishFullCfgMap (jparse : String → Option Json) (st : DBState)
    (sid : String) : List (String × Json) :=
  let rows := st.service_configs.filter (fun c => c.service_id = sid)
  let m := rows.foldl
    (fun m c =>
      alistSet m c.key (match c.value with | none => Json.null | some s => Json.str s))
    []
  match alistGet m "ports" with
  | some (Json.str s) =>
      match jparse s with
      | some j => alistSet m "ports" j
      | none => m
  | _ => m

/-- `env_map`: service-scoped environment variables as a dict. -/
def publishEnvMap (st : DBState) (sid : String) : List (String × Json) :=
  (st.environment_variables.filter
      (fun v => v.scope = PermissionScope.service ∧ v.resource_id = sid)).foldl
    (fun m v =>
      alistSet m v.key (match v.value with | none => Json.null | some s => Json.str s))
    []

/-- `sec_map`: service-scoped secrets as a dict. -/
def publishSecMap (st : DBState) (sid : String) : List (String × Json) :=
  (st.secrets.filter
      (fun v => v.scope = PermissionScope.service ∧ v.resource_id = sid)).foldl
    (fun m v =>
      alistSet m v.key (match v.value with | none => Json.null | some s => Json.str s))
    []

/-- `versioned_cfg`: the hash only covers `docker_image` and `ports`. -/
def publishVersionedCfg (jparse : String → Option Json) (st : DBState)
    (sid : String) : List (String × Json) :=
  let m := publishFullCfgMap jparse st sid
  (["docker_image", "ports"]).filterMap
    (fun k => (alistGet m k).map (fun v => (k, v)))

/-- `hash_spec` as a JSON value: `{"config": .., "variables": .., "secrets": ..}`. -/
def publishHashSpec (jparse : String → Option Json) (st : DBState)
    (sid : String) : Json :=
  Json.obj
    [("config", Json.obj (publishVersionedCfg jparse st sid)),
     ("variables", Json.obj (publishEnvMap st sid)),
     ("secrets", Json.obj (publishSecMap st sid))]

/-- `cfg_hash = hashlib.sha256(hash_spec_str.encode()).hexdigest()`;
the SHA-256 digest itself is the opaque parameter `sha`. -/
def publishConfigHash (sha : String → String) (jparse : String → Option Json)
    (st : DBState) (sid : String) : String :=
  sha (renderJson (publishHashSpec jparse st sid))

/-- An optional string column as a JSON field value. -/
def optStrJson : Option String → Json
  | none => Json.null
  | some s => Json.str s

/-- `svc_json`: the service snapshot stored in `spec_json`. -/
def publishSvcJson (s : ServiceRow) : Json :=
  Json.obj
    [("id", Json.str s.id), ("name", Json.str s.name),
     ("description", optStrJson s.description), ("type", optStrJson s.stype),
     ("project_id", Json.str s.project_id), ("owner", optStrJson s.owner),
     ("status", optStrJson s.status), ("created_at", optStrJson s.created_at),
     ("updated_at", optStrJson s.updated_at), ("deleted_at", optStrJson s.deleted_at)]

/-- `proj_json`: the project snapshot stored in `spec_json` (or `null`). -/
def publishProjJson : Option ProjectRow → Json
  | none => Json.null
  | some p =>
      Json.obj
        [("id", Json.str p.id), ("name", Json.str p.name),
         ("description", optStrJson p.description),
         ("owner_id", optStrJson p.owner_id),
         ("created_at", optStrJson p.created_at),
         ("updated_at", optStrJson p.updated_at),
         ("deleted_at", optStrJson p.deleted_at)]

/-- The full `spec_json` text persisted on a published version. -/
def publishSpecJson (jparse : String → Option Json) (st : DBState)
    (svc : ServiceRow) : String :=
  renderJson (Json.obj
    [("service", publishSvcJson svc),
     ("config", Json.obj (publishFullCfgMap jparse st svc.id)),
     ("variables", Json.obj (publishEnvMap st svc.id)),
     ("secrets", Json.obj (publishSecMap st svc.id)),
     ("project", publishProjJson (findProject st svc.project_id))])

/-- The tail of the `publish_service_version` mutation: duplicate-hash
lookup, label computation and the insert of the new version row. -/
def publishCreate (st : DBState) (service_id spec_json cfg_hash : String)
    (latest : Option ServiceVersionRow) : DBState × PublishVersionResult :=
  match pickLatest ((versionsOf st service_id).filter
      (fun v => v.config_hash = cfg_hash)) with
  | some m =>
      (st,
        ⟨false, "Current configuration matches existing version " ++
          m.version_label, none⟩)
  | none =>
      let next_num := parse_num (latest.map (fun l => l.version_label)) + 1
      let next_label := "v" ++ toString (max 1 next_num)
      let row : ServiceVersionRow :=
        { id := "id-" ++ toString st.next_id, service_id := service_id,
          version_label := next_label, config_hash := cfg_hash,
          spec_json := some spec_json, created_seq := st.next_id }
      ({ st with service_versions := st.service_versions ++ [row],
                 next_id := st.next_id + 1 },
        ⟨true, "Created " ++ next_label, some row⟩)

/-- The body of `publish_service_version` after its auth/permission gate
(schema.py 4042-4165); this part raises nothing.  Note: the service load has
no `deleted_at` filter. -/
def publishCore (sha : String → String) (jparse : String → Option Json)
    (st : DBState) (service_id : String) : DBState × PublishVersionResult :=
  match findService st service_id with
  | none => (st, ⟨false, "Service not found", none⟩)
  | some svc =>
      let spec_json := publishSpecJson jparse st svc
      let cfg_hash := publishConfigHash sha jparse st service_id
      let latest := pickLatest (versionsOf st service_id)
      match latest with
      | some l =>
          if l.config_hash = cfg_hash then
            (st, ⟨false, "No new changes since " ++ l.version_label, none⟩)
          else
            publishCreate st service_id spec_json cfg_hash latest
      | none => publishCreate st service_id spec_json cfg_hash latest

/-- `publish_service_version(service_id)` (schema.py 4030-4165). -/
def publish_service_version (sha : String → String)
    (jparse : String → Option Json) (current_user : Option Caller)
    (service_id : String) (st : DBState) :
    Except String (DBState × PublishVersionResult) := do
  match current_user with
  | none => throw "Authentication required"
  | some u =>
    if !u.is_admin then do
      let has_access ←
        check_resource_permission u .write .service service_id st
      if !has_access then throw "Access denied"
    pure (publishCore sha jparse st service_id)

/-- `create_service_version_and_deployment(service_id, version_label,
config_hash, spec_json)` (schema.py 3830-3892).  Checks only the
`(service_id, version_label)` uniqueness before inserting. -/
def create_service_version_and_deployment (current_user : Option Caller)
    (service_id version_label config_hash : String) (spec_json : Option String)
    (st : DBState) : Except String (DBState × DeploymentRow) := do
  match current_user with
  | none => throw "Authentication required"
  | some u =>
    match (st.services.filter
        (fun s => s.id = service_id ∧ s.deleted_at = none)).head? with
    | none => throw "Service not found"
    | some _ =>
      if !u.is_admin then do
        let has_access ←
          check_resource_permission u .write .service service_id st
        if !has_access then throw "Access denied"
      match (st.service_versions.filter
          (fun v => v.service_id = service_id ∧
            v.version_label = version_label)).head? with
      | some _ =>
          throw ("Version '" ++ version_label ++
            "' already exists for this service")
      | none =>
          let new_version : ServiceVersionRow :=
            { id := "id-" ++ toString st.next_id, service_id := service_id,
              version_label := version_label, config_hash := config_hash,
              spec_json := spec_json, created_seq := st.next_id }
          let new_deployment : DeploymentRow :=
            { id := "id-" ++ toString (st.next_id + 1),
              service_id := service_id, version_id := new_version.id,
              environment_id := none, status := "pending" }
          pure ({ st with
                    service_versions := st.service_versions ++ [new_version],
                    deployments := st.deployments ++ [new_deployment],
                    next_id := st.next_id + 2 },
            new_deployment)

/-! ## Manifest renderer (app/core/k8s/manifest.py) -/

/-- Relevant fields of the process-wide `settings` object. -/
structure Settings where
  BASE_DOMAIN : String := "env360.synvaraworks.com"
  DOMAIN_CERT_NAMESPACE : String := "cert-manager"
  DOMAIN_ISSUER_NAME : String := "letsencrypt-prod"
  DOMAIN_CERT_DURATION_HOURS : Int := 2160
  DOMAIN_CERT_RENEW_BEFORE_HOURS : Int := 360
  DOMAIN_GATEWAY_NAME : String := "env360-ingress"
  DOMAIN_GATEWAY_NAMESPACE : String := "istio-ingress"
  DOMAIN_GATEWAY_CLASS_NAME : String := "istio"
  deriving DecidableEq

/-- One character of `_normalize_name`: lowercase (ASCII, which covers the
names used here), then `/`, `_` and space become `-`. -/
def normalizeChar (c : Char) : Char :=
  let c := c.toLower
  if c = '/' ∨ c = '_' ∨ c = ' ' then '-' else c

/-- `_normalize_name(name)`. -/
def normalize_name (s : String) : String :=
  String.mk (s.data.map normalizeChar)

/-- `service_details["project"]` as the renderer reads it. -/
structure SDProject where
  id : String
  name : String
  deriving DecidableEq

/-- `service_details["service"]` as the renderer reads it. -/
structure SDService where
  id : String
  name : String
  deriving DecidableEq

/-- One entry of `config["ports"]` (a mapping; a missing key makes the
corresponding `.get` fall back to its default). -/
structure PortCfg where
  name : Option String := none
  containerPort : Option Int := none
  protocol : Option String := none
  deriving DecidableEq

/-- The keys of `service_details["config"]` that
`render_virtual_service_external` reads (a `none` field models a missing
key). -/
structure SvcConfig where
  base_domain : Option String := none
  ports : Option (List PortCfg) := none
  gateway_name : Option String := none
  gateway_namespace : Option String := none
  lane_id : Option String := none
  deriving DecidableEq

/-- The `serviceDetails` input of the renderer. -/
structure ServiceDetails where
  project : SDProject
  service : SDService
  config : SvcConfig := {}
  lane_id : Option String := none
  deriving DecidableEq

/-- `_get_namespace_name(service_details)`. -/
def get_namespace_name (sd : ServiceDetails) : String :=
  "proj-" ++ normalize_name sd.project.id

/-- Generic dict assignment on an association list (replace in place or
append). -/
def alistPut {α : Type} (m : List (String × α)) (k : String) (v : α) :
    List (String × α) :=
  match m with
  | [] => [(k, v)]
  | (k0, v0) :: rest =>
      if k0 = k then (k0, v) :: rest else (k0, v0) :: alistPut rest k v

/-- `_build_labels(scope, service_details, version_label, deployment_id)`
for the scopes used below (no `extra`). -/
def build_labels (scope : String) (sd : ServiceDetails)
    (version_label deployment_id : String) : List (String × String) :=
  let base : List (String × String) :=
    [("app.kubernetes.io/part-of", "env360"),
     ("app.kubernetes.io/managed-by", "env360"),
     ("project-id", sd.project.id),
     ("project-name", sd.project.name),
     ("deployment-id", deployment_id)]
  if scope = "deployment" ∨ scope = "pod" ∨ scope = "service" ∨
      scope = "service_account" then
    let m := base
    let m := alistPut m "app.kubernetes.io/name" (sd.service.name ++ "-" ++ version_label)
    let m := alistPut m "app.kubernetes.io/instance" (sd.service.id ++ "-" ++ version_label)
    let m := alistPut m "app.kubernetes.io/version" version_label
    let m := alistPut m "app" (sd.service.name ++ "-" ++ version_label)
    let m := alistPut m "version" version_label
    let m := alistPut m "service-id" sd.service.id
    let m := alistPut m "service-name" sd.service.name
    let lane_id :=
      match sd.lane_id with
      | some l => if pyTruthy l then some l else sd.config.lane_id
      | none => sd.config.lane_id
    match lane_id with
    | some l => if pyTruthy l then alistPut m "lane" l else m
    | none => m
  else base

/-- The external (gateway) VirtualService manifest.  The source builds a
nested dict with exactly one `http` entry holding one `match` and one
`route`; those paths are flattened into fields here. -/
structure VirtualServiceExt where
  apiVersion : String
  kind : String
  name : String
  ns : String
  labels : List (String × String)
  hosts : List String
  gateways : List String
  matchUriPref : String
  destinationHost : String
  destinationPortNumber : Int
  deriving DecidableEq

/-- `render_virtual_service_external(service_details, version_label,
deployment_id, env_name)` (manifest.py 469-541). -/
def render_virtual_service_external (settings : Settings)
    (sd : ServiceDetails) (version_label deployment_id : String)
    (env_name : String := "") : VirtualServiceExt :=
  let svc_name := normalize_name sd.service.name
  let ns_name := get_namespace_name sd
  let project_name := normalize_name sd.project.name
  let env_segment := if pyTruthy env_name then normalize_name env_name else ""
  let base_domain := pyOrStr sd.config.base_domain settings.BASE_DOMAIN
  let uriPref :=
    if pyTruthy env_segment then
      "/" ++ project_name ++ "/" ++ env_segment ++ "/" ++ svc_name ++ "/" ++
        version_label
    else
      "/" ++ project_name ++ "/" ++ svc_name ++ "/" ++ version_label
  let backend_svc_name := svc_name ++ "-" ++ version_label
  let backend_port : Int :=
    match sd.config.ports.getD [] with
    | [] => 80
    | p :: _ => p.containerPort.getD 80
  let gateway_name := (sd.config.gateway_name).getD "env360-ingress"
  let gateway_namespace := (sd.config.gateway_namespace).getD "istio-ingress"
  { apiVersion := "networking.istio.io/v1beta1",
    kind := "VirtualService",
    name := svc_name ++ "-" ++ version_label ++ "-ext-vs",
    ns := ns_name,
    labels := build_labels "service" sd version_label deployment_id,
    hosts := [base_domain],
    gateways := [gateway_namespace ++ "/" ++ gateway_name],
    matchUriPref := uriPref,
    destinationHost := backend_svc_name,
    destinationPortNumber := backend_port }

/-- The cert-manager Certificate manifest of an environment. -/
structure CertificateManifest where
  name : String
  ns : String
  issuerName : String
  secretName : String
  dnsNames : List String
  duration : String
  renewBefore : String
  deriving DecidableEq

/-- `render_certificate_manifest(env_name, project_name)`. -/
def render_certificate_manifest (settings : Settings)
    (env_name project_name : String) : CertificateManifest :=
  let domain := env_name ++ "." ++ project_name ++ "." ++ settings.BASE_DOMAIN
  let env_seg := normalize_name env_name
  let proj_seg := normalize_name project_name
  let cert_name := env_seg ++ "-" ++ proj_seg ++ "-cert"
  { name := cert_name,
    ns := settings.DOMAIN_CERT_NAMESPACE,
    issuerName := settings.DOMAIN_ISSUER_NAME,
    secretName := cert_name,
    dnsNames := [domain, "*." ++ domain],
    duration := toString settings.DOMAIN_CERT_DURATION_HOURS ++ "h",
    renewBefore := toString settings.DOMAIN_CERT_RENEW_BEFORE_HOURS ++ "h" }

/-- One HTTPS listener of the rendered Gateway. -/
structure GatewayListener where
  name : String
  port : Int
  protocol : String
  hostname : String
  tlsCertName : String
  tlsCertNamespace : String
  deriving DecidableEq

/-- The Gateway manifest of an environment. -/
structure GatewayManifest where
  name : String
  ns : String
  gatewayClassName : String
  listeners : List GatewayListener
  deriving DecidableEq

/-- One element of the `listeners` argument of `render_gateway_manifest`:
a dict `{"key": .., "value": .., "config_data": ..}` built by
`save_domain_info` from an `environment_configs` row. -/
structure DomainInfoEntry where
  key : String
  value : Option String := none
  config_data : Option Json := none

/-- The per-listener prelude of `render_gateway_manifest`: take
`listener['value']`, run it through `json.loads` when it is a string, and
read `environment_name` / `project_name` off the result.  `Except.error`
models the uncaught exceptions: `json.loads` failure on a non-JSON string,
and attribute errors when the value is not a mapping of strings. -/
def gatewayListenerSegs (jparse : String → Option Json)
    (e : DomainInfoEntry) : Except String (String × String) :=
  match e.value with
  | none =>
      .error "AttributeError: 'NoneType' object has no attribute 'get'"
  | some s =>
      match jparse s with
      | none => .error ("json.decoder.JSONDecodeError in json.loads: " ++ s)
      | some (Json.obj kvs) =>
          let ev := (alistGet kvs "environment_name").getD (Json.str "")
          let pv := (alistGet kvs "project_name").getD (Json.str "")
          match ev, pv with
          | Json.str es, Json.str ps =>
              .ok (normalize_name es, normalize_name ps)
          | _, _ => .error "AttributeError: lower"
      | some _ => .error "AttributeError: object has no attribute 'get'"

/-- The `listeners_spec` loop of `render_gateway_manifest`: two HTTPS
listeners per input entry, failing on the first entry whose value does not
parse. -/
def gatewayListenersSpec (settings : Settings) (jparse : String → Option Json)
    (env_name project_name : String) :
    List DomainInfoEntry → Except String (List GatewayListener)
  | [] => .ok []
  | e :: rest => do
      let (env_seg, proj_seg) ← gatewayListenerSegs jparse e
      let domain := env_name ++ "." ++ project_name ++ "." ++ settings.BASE_DOMAIN
      let cert_name := env_seg ++ "-" ++ proj_seg ++ "-cert"
      let tail ← gatewayListenersSpec settings jparse env_name project_name rest
      pure
        ({ name := "http-" ++ proj_seg ++ "-" ++ env_seg ++ "-domain",
           port := 443, protocol := "HTTPS", hostname := "*." ++ domain,
           tlsCertName := cert_name,
           tlsCertNamespace := settings.DOMAIN_CERT_NAMESPACE } ::
         { name := "http-" ++ proj_seg ++ "-" ++ env_seg ++ "-path",
           port := 443, protocol := "HTTPS", hostname := domain,
           tlsCertName := cert_name,
           tlsCertNamespace := settings.DOMAIN_CERT_NAMESPACE } :: tail)

/-- `render_gateway_manifest(env_name, project_name, listeners)`
(manifest.py 598-683); `json.loads` is the parameter `jparse`, whose `none`
result models the raised `JSONDecodeError`. -/
def render_gateway_manifest (settings : Settings)
    (jparse : String → Option Json) (env_name project_name : String)
    (listeners : List DomainInfoEntry) : Except String GatewayManifest := do
  let ls ← gatewayListenersSpec settings jparse env_name project_name listeners
  pure
    { name := settings.DOMAIN_GATEWAY_NAME,
      ns := settings.DOMAIN_GATEWAY_NAMESPACE,
      gatewayClassName := settings.DOMAIN_GATEWAY_CLASS_NAME,
      listeners := ls }

/-! ## Environment-subdomain workflow steps (app/workflows/dbos_deploy.py) -/

/-- The dict returned by the `save_domain_info` step. -/
structure EnvDetails where
  environment_id : String
  environment_name : String
  project_name : String
  cluster_id : Option String := none
  domain_info_entries : List DomainInfoEntry := []

/-- Replace the first `environment_configs` row matching
`(environment_id, key="domain_info")` with the updated values. -/
def updateDomainInfoRow (environment_id value : String) (cfg : Json) :
    List EnvironmentConfigRow → List EnvironmentConfigRow
  | [] => []
  | r :: rest =>
      if r.environment_id = environment_id ∧ r.key = "domain_info" then
        { r with value := some value, config_data := some cfg } :: rest
      else r :: updateDomainInfoRow environment_id value cfg rest

/-- `save_domain_info(environment_id)` (dbos_deploy.py 367-438): resolve the
environment and project, upsert the `domain_info` config row, and return the
environment details together with **all** `environment_configs` rows of the
environment as listener inputs. -/
def save_domain_info (st : DBState) (environment_id : String) :
    Except String (DBState × EnvDetails) := do
  match findEnvironment st environment_id with
  | none => throw ("Environment " ++ environment_id ++ " not found")
  | some env =>
    match findProject st env.project_id with
    | none =>
        throw ("Project " ++ env.project_id ++ " not found for environment " ++
          environment_id)
    | some project =>
      let env_seg := normalize_name env.name
      let proj_seg := normalize_name project.name
      let domain_info : Json :=
        Json.obj [("project_name", Json.str proj_seg),
                  ("environment_name", Json.str env_seg)]
      let domain_info_str := renderJsonDefault domain_info
      let existing := (st.environment_configs.filter
        (fun c => c.environment_id = environment_id ∧ c.key = "domain_info")).head?
      let configs :=
        match existing with
        | some _ =>
            updateDomainInfoRow environment_id domain_info_str domain_info
              st.environment_configs
        | none =>
            st.environment_configs ++
              [{ environment_id := environment_id, key := "domain_info",
                 value := some domain_info_str, config_data := some domain_info }]
      let st' := { st with environment_configs := configs }
      let entries :=
        (st'.environment_configs.filter
            (fun c => c.environment_id = environment_id)).map
          (fun c => ({ key := c.key, value := c.value,
                       config_data := c.config_data } : DomainInfoEntry))
      pure (st',
        { environment_id := environment_id, environment_name := env.name,
          project_name := project.name, cluster_id := env.cluster_id,
          domain_info_entries := entries })

/-- The bundle returned by the `render_env_manifests` step. -/
structure EnvManifests where
  certificate : CertificateManifest
  gateway : GatewayManifest
  deriving DecidableEq

/-- `render_env_manifests(env_details)` (dbos_deploy.py 441-449). -/
def render_env_manifests (settings : Settings)
    (jparse : String → Option Json) (env_details : EnvDetails) :
    Except String EnvManifests := do
  let certificate := render_certificate_manifest settings
    env_details.environment_name env_details.project_name
  let gateway ← render_gateway_manifest settings jparse
    env_details.environment_name env_details.project_name
    env_details.domain_info_entries
  pure { certificate := certificate, gateway := gateway }

/-! ## Manifest apply and readiness (app/core/k8s/apply.py) -/

/-- The fields `apply_manifest` reads off `doc["metadata"]`. -/
structure ManifestMeta where
  name : Option String := none
  ns : Option String := none
  deriving DecidableEq

/-- One manifest object, restricted to the keys `apply_manifest` reads. -/
structure ManifestDoc where
  apiVersion : Option String := none
  kind : Option String := none
  metadata : Option ManifestMeta := none
  deriving DecidableEq

/-- One document of a parsed multi-document YAML stream: a falsy document
(skipped), a mapping, or a document of any other shape (rejected). -/
inductive YamlStreamDoc where
  | yNull
  | yMap (d : ManifestDoc)
  | yOther
  deriving DecidableEq

/-- The `manifest` argument of `apply_manifest`: a YAML string (given here
as its parsed document stream), a dict, or a list of dicts. -/
inductive ManifestInput where
  | ofStr (docs : List YamlStreamDoc)
  | ofDict (d : ManifestDoc)
  | ofList (ds : List ManifestDoc)

/-- The `yaml.safe_load_all` loop of `_ensure_list_of_dicts`: skip falsy
documents, keep mappings, raise on anything else. -/
def collectYamlDocs : List YamlStreamDoc → Except String (List ManifestDoc)
  | [] => .ok []
  | .yNull :: rest => collectYamlDocs rest
  | .yMap d :: rest => (collectYamlDocs rest).map (fun ds => d :: ds)
  | .yOther :: _ => .error "Each YAML document must be a mapping/object"

/-- `_ensure_list_of_dicts(manifest)` (apply.py 21-41). -/
def ensure_list_of_dicts : ManifestInput → Except String (List ManifestDoc)
  | .ofStr ys => collectYamlDocs ys
  | .ofList ds => .ok ds
  | .ofDict d => .ok [d]

/-- Outcome of one server-side-apply attempt (`resource.patch` with
`application/apply-patch+yaml`): success, a `K8sApiException` with an HTTP
status, or any other exception. -/
inductive SsaResult where
  | ok
  | k8sErr (status : Option Int) (msg : String)
  | otherErr (msg : String)
  deriving DecidableEq

/-- `doc.get("metadata", {}) or {}`. -/
def docMeta (d : ManifestDoc) : ManifestMeta :=
  d.metadata.getD {}

/-- The validation `if not api_version or not kind or not name`. -/
def docValid (d : ManifestDoc) : Bool :=
  pyTruthyOpt d.apiVersion && pyTruthyOpt d.kind && pyTruthyOpt (docMeta d).name

/-- `f"{kind}/{name}{' in ' + namespace if namespace else ''}"`. -/
def docRef (d : ManifestDoc) : String :=
  (d.kind.getD "") ++ "/" ++ ((docMeta d).name.getD "") ++
    (match (docMeta d).ns with
     | some ns => if pyTruthy ns then " in " ++ ns else ""
     | none => "")

/-- `json.dumps(doc)[:200]` over the modelled keys. -/
def docDump (d : ManifestDoc) : String :=
  let meta : Json := Json.obj
    ((match (d.metadata.getD {}).name with
      | some n => [("name", Json.str n)] | none => []) ++
     (match (d.metadata.getD {}).ns with
      | some n => [("namespace", Json.str n)] | none => []))
  let fields :=
    (match d.apiVersion with
     | some v => [("apiVersion", Json.str v)] | none => []) ++
    (match d.kind with | some k => [("kind", Json.str k)] | none => []) ++
    (match d.metadata with | some _ => [("metadata", meta)] | none => [])
  String.mk ((renderJsonDefault (Json.obj fields)).data.take 200)

/-- The run record of one `apply_manifest` call: the `(ok, message)` result
(`Except.error` for an exception escaping the function), the trace of
objects on which a server-side apply was attempted, and the trace of objects
on which the strategic-merge fallback was attempted. -/
structure ApplyRun where
  result : Except String (Bool × String)
  ssaTrace : List ManifestDoc := []
  mergeTrace : List ManifestDoc := []

/-- The per-object loop of `apply_manifest` (apply.py 87-130).  `ssa` and
`merge` stand for the two `resource.patch` calls against the cluster
(`merge d = none` models a successful strategic-merge patch, `some msg` a
raised exception); the traces record which objects each call was made on. -/
def applyLoop (ssa : ManifestDoc → SsaResult)
    (merge : ManifestDoc → Option String) :
    List ManifestDoc → List String → List ManifestDoc → List ManifestDoc →
    ApplyRun
  | [], applied, str, mtr =>
      { result := .ok (true,
          if applied.isEmpty then "No resources to apply."
          else String.intercalate "; " applied),
        ssaTrace := str, mergeTrace := mtr }
  | d :: rest, applied, str, mtr =>
      if !docValid d then
        { result := .ok (false,
            "Manifest missing apiVersion/kind/metadata.name: " ++ docDump d),
          ssaTrace := str, mergeTrace := mtr }
      else
        match ssa d with
        | .ok =>
            applyLoop ssa merge rest (applied ++ ["applied " ++ docRef d])
              (str ++ [d]) mtr
        | .k8sErr status msg =>
            if status = some 409 then
              match merge d with
              | none =>
                  applyLoop ssa merge rest (applied ++ ["patched " ++ docRef d])
                    (str ++ [d]) (mtr ++ [d])
              | some m =>
                  { result := .ok (false, m), ssaTrace := str ++ [d],
                    mergeTrace := mtr ++ [d] }
            else
              { result := .ok (false, msg), ssaTrace := str ++ [d],
                mergeTrace := mtr }
        | .otherErr msg =>
            { result := .ok (false, msg), ssaTrace := str ++ [d],
              mergeTrace := mtr }

/-- `apply_manifest(manifest, ...)` (apply.py 44-135), after a successfully
built API client.  `_ensure_list_of_dicts` runs before the `try` block, so
its `ValueError` escapes as `Except.error`. -/
def apply_manifest (ssa : ManifestDoc → SsaResult)
    (merge : ManifestDoc → Option String) (manifest : ManifestInput) :
    ApplyRun :=
  match ensure_list_of_dicts manifest with
  | .error e => { result := .error e }
  | .ok docs => applyLoop ssa merge docs [] [] []

/-- `obj.spec` / `obj.status` of a fetched Deployment, with each counter
optional (replica counts are non-negative, hence `Nat`). -/
structure DeploymentSpecObj where
  replicas : Option Nat := none
  deriving DecidableEq

/-- The status counters `_check_deployment_ready` reads. -/
structure DeploymentStatusObj where
  availableReplicas : Option Nat := none
  updatedReplicas : Option Nat := none
  readyReplicas : Option Nat := none
  deriving DecidableEq

/-- A fetched Deployment object. -/
structure DeploymentObj where
  spec : Option DeploymentSpecObj := none
  status : Option DeploymentStatusObj := none
  deriving DecidableEq

/-- `_check_deployment_ready` (apply.py 184-197), given the fetched object:
`(obj.spec or {}).get("replicas", 1)` and `int((status or {}).get(...) or 0)`
become `Option.getD` with defaults `1` and `0`. -/
def check_deployment_ready (obj : DeploymentObj) (name : String) :
    Bool × String :=
  let replicas := (obj.spec.bind (fun s => s.replicas)).getD 1
  let available := (obj.status.bind (fun s => s.availableReplicas)).getD 0
  let updated := (obj.status.bind (fun s => s.updatedReplicas)).getD 0
  let ready := (obj.status.bind (fun s => s.readyReplicas)).getD 0
  if available ≥ replicas ∧ updated ≥ replicas ∧ ready ≥ replicas then
    (true, "Deployment " ++ name ++ " ready (" ++ toString available ++ "/" ++
      toString replicas ++ " available)")
  else
    (false, "Deployment " ++ name ++ ": " ++ toString available ++ "/" ++
      toString replicas ++ " available, " ++ toString ready ++ "/" ++
      toString replicas ++ " ready")

/-! ## Concrete fixtures used by the claim theorems and witnesses -/

/-- An admin caller (permission checks are skipped for admins). -/
def adminCaller : Caller :=
  { id := some "adm", is_admin := true, is_super_admin := false }

/-- A plain authenticated user. -/
def callerU1 : Caller :=
  { id := some "u1", is_admin := false, is_super_admin := false }

/-- A service-scope grant for `u1` on service `S`. -/
def rpU1 : ResourcePermissionRow :=
  { id := "rp1", user_id := "u1", scope := .service, resource_id := "S",
    actions := ["read"] }

/-- A service-scope grant for another user `u2` on the same service `S`. -/
def rpU2 : ResourcePermissionRow :=
  { id := "rp2", user_id := "u2", scope := .service, resource_id := "S",
    actions := ["read", "write"] }

/-- A state with project `P` owned by `boss`, service `S` in `P`, and the
two grants above. -/
def stC2 : DBState :=
  { projects := [{ id := "P", name := "proj", owner_id := some "boss" }],
    services := [{ id := "S", name := "svc", project_id := "P" }],
    resource_permissions := [rpU1, rpU2] }

/-- A state with service `S` (not deleted) holding one published version
`v1` with `config_hash = "h1"`. -/
def stC1 : DBState :=
  { services := [{ id := "S", name := "svc", project_id := "P" }],
    service_versions :=
      [{ id := "a", service_id := "S", version_label := "v1",
         config_hash := "h1", created_seq := 1 }],
    next_id := 5 }

/-- The configuration of claim C3: non-owner `u1` holds a project-scope
grant `{read, write}` on `P`, and service `S` of `P` has no service-scope
grant. -/
def stC3 : DBState :=
  { projects := [{ id := "P", name := "proj", owner_id := some "boss" }],
    services := [{ id := "S", name := "svc", project_id := "P" }],
    resource_permissions :=
      [{ id := "rp", user_id := "u1", scope := .project, resource_id := "P",
         actions := ["read", "write"] }] }

/-! ## Claim theorems -/

/-- C1: the claim says every code path creating a `ServiceVersion` refuses a
`config_hash` equal to that of an existing version of the same service.
`create_service_version_and_deployment` does not: on a state whose service
`S` already has version `v1` with hash `"h1"`, creating `v2` with the same
hash `"h1"` succeeds, leaving two versions of `S` that share `config_hash`.
Only the `(service_id, version_label)` pair is checked. -/
theorem create_version_and_deployment_accepts_duplicate_hash :
    (create_service_version_and_deployment (some adminCaller) "S" "v2" "h1"
        none stC1).map
      (fun r => (versionsOf r.1 "S").map (fun v => (v.version_label, v.config_hash)))
    = .ok [("v1", "h1"), ("v2", "h1")] := by
  rfl

/-- C2: the claim says a non-admin caller without grant rights on the queried
resource only ever receives their own rows.  But when such a caller passes
`scope` and `resource_id` and no `user_id`, the query skips the self-filter
(schema.py 2016-2024) and returns every row on the resource: here caller
`u1`, who cannot grant on `(service, S)`, receives `u2`'s row as well. -/
theorem resource_permissions_leak_other_users_rows :
    resource_permissions (some callerU1) 0 100 none (some "service") (some "S")
        stC2 = .ok [rpU1, rpU2]
    ∧ can_grant_resource_permission callerU1 .service "S" stC2 = false
    ∧ callerU1.is_admin = false
    ∧ callerU1.id = some "u1"
    ∧ rpU2.user_id = "u2" := by
  exact ⟨rfl, rfl, rfl, rfl, rfl⟩

/-- C3: the claim says `check_resource_permission(U, write, service, S)`
returns `true` through project-level inheritance (and `false` for `delete`).
The code instead raises: the `Service` model has no `environment_id`
attribute, so the service-scope inheritance block (dependencies.py 348)
fails with `AttributeError` before any project grant is consulted.  Both
calls of the claim's scenario error out instead of returning a boolean. -/
theorem check_resource_permission_service_scope_raises :
    check_resource_permission callerU1 .write .service "S" stC3 =
        .error "AttributeError: 'Service' object has no attribute 'environment_id'"
    ∧ check_resource_permission callerU1 .delete .service "S" stC3 =
        .error "AttributeError: 'Service' object has no attribute 'environment_id'"
    ∧ stC3.resource_permissions.map (fun p => (p.user_id, p.scope.value, p.resource_id, p.actions))
        = [("u1", "project", "P", ["read", "write"])] := by
  exact ⟨rfl, rfl, rfl⟩

/-- C8: the Deployment readiness check is `available ≥ replicas ∧ updated ≥
replicas ∧ ready ≥ replicas`, with absent status counters read as `0` and an
absent `spec.replicas` read as `1`; consequently any object with
`spec.replicas = 0` is reported ready whatever its status counters hold. -/
theorem check_deployment_ready_characterization (obj : DeploymentObj)
    (name : String) :
    ((check_deployment_ready obj name).1 = true ↔
      ((obj.status.bind (fun s => s.availableReplicas)).getD 0 ≥
          (obj.spec.bind (fun s => s.replicas)).getD 1 ∧
        (obj.status.bind (fun s => s.updatedReplicas)).getD 0 ≥
          (obj.spec.bind (fun s => s.replicas)).getD 1 ∧
        (obj.status.bind (fun s => s.readyReplicas)).getD 0 ≥
          (obj.spec.bind (fun s => s.replicas)).getD 1))
    ∧ (obj.spec.bind (fun s => s.replicas) = some 0 →
        (check_deployment_ready obj name).1 = true) := by
  constructor
  · simp only [check_deployment_ready]
    split_ifs with h
    · simpa using h
    · simpa using h
  · intro h0
    simp [check_deployment_ready, h0]

/-- Witness for C8 at a concrete object: `spec.replicas = 0` with no status
reported at all is ready immediately. -/
theorem check_deployment_ready_zero_replicas_witness :
    (({ spec := some { replicas := some 0 }, status := none } :
        DeploymentObj).spec.bind (fun s => s.replicas) = some 0)
    ∧ (check_deployment_ready
        { spec := some { replicas := some 0 }, status := none } "dep").1 = true := by
  refine ⟨rfl, ?_⟩
  exact (check_deployment_ready_characterization
    { spec := some { replicas := some 0 }, status := none } "dep").2 rfl

/-- With an admin caller, `publish_service_version` skips the permission
check and reduces to its exception-free core. -/
theorem publish_admin_ok (sha : String → String) (jparse : String → Option Json)
    (u : Caller) (sid : String) (st : DBState) (hadm : u.is_admin = true) :
    publish_service_version sha jparse (some u) sid st =
      .ok (publishCore sha jparse st sid) := by
  simp only [publish_service_version, hadm, Bool.not_true, Bool.false_eq_true,
    if_false, ite_false]
  rfl

/-- The fold underlying `pickLatest` yields an element of the list or the
initial accumulator. -/
theorem pickStep_foldl_mem (l : List ServiceVersionRow)
    (acc : Option ServiceVersionRow) (x : ServiceVersionRow)
    (h : l.foldl pickStep acc = some x) : x ∈ l ∨ acc = some x := by
  induction l generalizing acc with
  | nil => exact Or.inr h
  | cons v l ih =>
      rw [List.foldl_cons] at h
      rcases ih _ h with hmem | hacc
      · exact Or.inl (List.mem_cons_of_mem _ hmem)
      · cases acc with
        | none =>
            simp only [pickStep] at hacc
            cases hacc
            exact Or.inl (List.mem_cons_self _ _)
        | some a =>
            simp only [pickStep] at hacc
            split at hacc
            · cases hacc
              exact Or.inl (List.mem_cons_self _ _)
            · exact Or.inr hacc

/-- A row found by `pickLatest` lies in the list. -/
theorem pickLatest_mem (l : List ServiceVersionRow) (x : ServiceVersionRow)
    (h : pickLatest l = some x) : x ∈ l := by
  rcases pickStep_foldl_mem l none x h with hmem | hacc
  · exact hmem
  · cases hacc

/-- The fold underlying `pickLatest` never loses a `some` accumulator. -/
theorem pickStep_foldl_isSome (l : List ServiceVersionRow)
    (acc : Option ServiceVersionRow) (hacc : acc.isSome) :
    (l.foldl pickStep acc).isSome := by
  induction l generalizing acc with
  | nil => exact hacc
  | cons v l ih =>
      rw [List.foldl_cons]
      apply ih
      cases acc with
      | none => cases hacc
      | some a =>
          simp only [pickStep]
          split <;> rfl

/-- `pickLatest` of a non-empty list finds a row. -/
theorem pickLatest_isSome (l : List ServiceVersionRow) (hne : l ≠ []) :
    (pickLatest l).isSome := by
  match l, hne with
  | v :: l, _ =>
      rw [pickLatest, List.foldl_cons]
      exact pickStep_foldl_isSome l (pickStep none v) rfl

/-- C4 amended: when publishing succeeds, the new label is computed from the
**most recently created** version only: its label is stripped of leading
`v`/`V` characters and read as an integer (`0` when absent or unparsable),
and the new label is `v` followed by `max 1 (n+1)`.  Labels of older
versions are never consulted. -/
theorem publish_next_label_formula (sha : String → String)
    (jparse : String → Option Json) (u : Caller) (sid : String)
    (st st2 : DBState) (r : PublishVersionResult)
    (hadm : u.is_admin = true)
    (h : publish_service_version sha jparse (some u) sid st = .ok (st2, r))
    (hok : r.ok = true) :
    ∃ row, r.version = some row
      ∧ row.version_label =
          "v" ++ toString (max 1 (parse_num
            ((pickLatest (versionsOf st sid)).map (fun l => l.version_label)) + 1))
      ∧ st2.service_versions = st.service_versions ++ [row] := by
  rw [publish_admin_ok sha jparse u sid st hadm] at h
  have hcore : publishCore sha jparse st sid = (st2, r) := Except.ok.inj h
  unfold publishCore at hcore
  split at hcore
  · -- service not found: the result is a failure, contradicting hok
    rw [Prod.mk.injEq] at hcore
    rw [← hcore.2] at hok
    simp at hok
  · rename_i svc hsvc
    dsimp only at hcore
    split at hcore
    · -- a latest version exists
      rename_i l hl
      split at hcore
      · rw [Prod.mk.injEq] at hcore
        rw [← hcore.2] at hok
        simp at hok
      · unfold publishCreate at hcore
        split at hcore
        · rw [Prod.mk.injEq] at hcore
          rw [← hcore.2] at hok
          simp at hok
        · rw [Prod.mk.injEq] at hcore
          obtain ⟨h1, h2⟩ := hcore
          subst h1
          subst h2
          exact ⟨_, rfl, rfl, rfl⟩
    · -- no previous version
      rename_i hl
      unfold publishCreate at hcore
      split at hcore
      · rw [Prod.mk.injEq] at hcore
        rw [← hcore.2] at hok
        simp at hok
      · rw [Prod.mk.injEq] at hcore
        obtain ⟨h1, h2⟩ := hcore
        subst h1
        subst h2
        rw [hl]
        exact ⟨_, rfl, rfl, rfl⟩

/-- Service `S` with two versions whose creation order (`v5` then `v2`)
disagrees with their numeric order. -/
def stC4 : DBState :=
  { services := [{ id := "S", name := "svc", project_id := "P" }],
    service_versions :=
      [{ id := "a", service_id := "S", version_label := "v5",
         config_hash := "h1", created_seq := 1 },
       { id := "b", service_id := "S", version_label := "v2",
         config_hash := "h2", created_seq := 2 }],
    next_id := 10 }

/-- C4 counterexample: on a service whose existing labels are `v5` (older)
and `v2` (newest), publishing assigns `v3` — next after the most recently
created version's label — not `v6` as the claim's
`max trailing integer of existing labels` rule demands. -/
theorem publish_label_ignores_max_trailing_integer :
    (versionsOf stC4 "S").map (fun v => v.version_label) = ["v5", "v2"]
    ∧ (pickLatest (versionsOf stC4 "S")).map (fun v => v.version_label) = some "v2"
    ∧ (publish_service_version (fun _ => "hX") (fun _ => none) (some adminCaller)
        "S" stC4).map (fun p => p.2.version.map (fun v => v.version_label))
      = .ok (some "v3")
    ∧ ("v3" : String) ≠ "v6" := by
  exact ⟨rfl, rfl, rfl, by decide⟩

/-- Witness for the amended C4 theorem at the concrete state `stC4`. -/
theorem publish_next_label_formula_witness :
    ∃ st2 r row,
      publish_service_version (fun _ => "hX") (fun _ => none) (some adminCaller)
          "S" stC4 = .ok (st2, r)
      ∧ r.ok = true ∧ r.version = some row
      ∧ row.version_label =
          "v" ++ toString (max 1 (parse_num
            ((pickLatest (versionsOf stC4 "S")).map (fun l => l.version_label)) + 1))
      ∧ st2.service_versions = stC4.service_versions ++ [row] := by
  obtain ⟨row, h1, h2, h3⟩ := publish_next_label_formula (fun _ => "hX")
    (fun _ => none) adminCaller "S" stC4 _ _ rfl rfl rfl
  exact ⟨_, _, row, rfl, rfl, h1, h2, h3⟩

/-- Membership in `versionsOf`. -/
theorem versionsOf_mem (st : DBState) (sid : String) (v : ServiceVersionRow) :
    v ∈ versionsOf st sid ↔ v ∈ st.service_versions ∧ v.service_id = sid := by
  simp [versionsOf, List.mem_filter]

/-- C5: when the current editable spec hashes to the `config_hash` of some
existing version of the service, `publish_service_version` returns a failed
(`ok = false`) result whose message cites the label of a matching version —
either `No new changes since <label>` (the latest version matches) or
`Current configuration matches existing version <label>` — creates no
version, and leaves the state untouched. -/
theorem publish_no_change_on_duplicate_hash (sha : String → String)
    (jparse : String → Option Json) (u : Caller) (sid : String)
    (st : DBState) (svc : ServiceRow) (v : ServiceVersionRow)
    (hadm : u.is_admin = true)
    (hsvc : findService st sid = some svc)
    (hv : v ∈ st.service_versions) (hvsid : v.service_id = sid)
    (hvh : v.config_hash = publishConfigHash sha jparse st sid) :
    ∃ r, publish_service_version sha jparse (some u) sid st = .ok (st, r)
      ∧ r.ok = false ∧ r.version = none
      ∧ ∃ w, w ∈ st.service_versions ∧ w.service_id = sid
          ∧ w.config_hash = publishConfigHash sha jparse st sid
          ∧ (r.message = "No new changes since " ++ w.version_label
             ∨ r.message =
                "Current configuration matches existing version " ++
                  w.version_label) := by
  rw [publish_admin_ok sha jparse u sid st hadm]
  have hvmem : v ∈ versionsOf st sid := (versionsOf_mem st sid v).mpr ⟨hv, hvsid⟩
  have hne : versionsOf st sid ≠ [] := List.ne_nil_of_mem hvmem
  obtain ⟨l, hl⟩ := Option.isSome_iff_exists.mp (pickLatest_isSome _ hne)
  have hlmem := (versionsOf_mem st sid l).mp (pickLatest_mem _ _ hl)
  unfold publishCore
  rw [hsvc]
  dsimp only
  rw [hl]
  dsimp only
  by_cases heq : l.config_hash = publishConfigHash sha jparse st sid
  · rw [if_pos heq]
    exact ⟨_, rfl, rfl, rfl, l, hlmem.1, hlmem.2, heq, Or.inl rfl⟩
  · rw [if_neg heq]
    unfold publishCreate
    have hvf : v ∈ (versionsOf st sid).filter
        (fun w => w.config_hash = publishConfigHash sha jparse st sid) := by
      rw [List.mem_filter]
      exact ⟨hvmem, by simpa using hvh⟩
    have hnef : (versionsOf st sid).filter
        (fun w => w.config_hash = publishConfigHash sha jparse st sid) ≠ [] :=
      List.ne_nil_of_mem hvf
    obtain ⟨m, hm⟩ := Option.isSome_iff_exists.mp (pickLatest_isSome _ hnef)
    have hmf := pickLatest_mem _ _ hm
    rw [List.mem_filter] at hmf
    have hmmem := (versionsOf_mem st sid m).mp hmf.1
    rw [hm]
    exact ⟨_, rfl, rfl, rfl, m, hmmem.1, hmmem.2, by simpa using hmf.2,
      Or.inr rfl⟩

/-- A service whose single published version's `config_hash` equals the hash
of its (empty) current editable spec under the constant digest function. -/
def stC5 : DBState :=
  { services := [{ id := "S", name := "svc", project_id := "P" }],
    service_versions :=
      [{ id := "a", service_id := "S", version_label := "v1",
         config_hash := "H", created_seq := 1 }],
    next_id := 7 }

/-- Witness for C5 at the concrete state `stC5`, with digest `fun _ => "H"`:
publishing reports no change against `v1` and the state is unchanged. -/
theorem publish_no_change_on_duplicate_hash_witness :
    ∃ r, publish_service_version (fun _ => "H") (fun _ => none)
        (some adminCaller) "S" stC5 = .ok (stC5, r)
      ∧ r.ok = false ∧ r.version = none
      ∧ ∃ w, w ∈ stC5.service_versions ∧ w.service_id = "S"
          ∧ w.config_hash = publishConfigHash (fun _ => "H") (fun _ => none)
              stC5 "S"
          ∧ (r.message = "No new changes since " ++ w.version_label
             ∨ r.message =
                "Current configuration matches existing version " ++
                  w.version_label) := by
  exact publish_no_change_on_duplicate_hash (fun _ => "H") (fun _ => none)
    adminCaller "S" stC5 { id := "S", name := "svc", project_id := "P" }
    { id := "a", service_id := "S", version_label := "v1",
      config_hash := "H", created_seq := 1 }
    rfl rfl (by decide) rfl rfl

/-- Normalization never empties a non-empty name (it maps characters
one-for-one). -/
theorem normalize_name_ne_empty (s : String) (h : s ≠ "") :
    normalize_name s ≠ "" := by
  cases s with
  | mk data =>
    cases data with
    | nil => exact absurd rfl h
    | cons c cs =>
        intro hc
        have h2 : (normalize_name (String.mk (c :: cs))).data = [] := by
          rw [hc]
        simp [normalize_name] at h2

/-- C6: with no `base_domain` override and a non-empty environment name, the
external VirtualService has `hosts = [BASE_DOMAIN]`, is bound to the gateway
`<gateway_namespace>/<gateway_name>` (config override or the defaults
`istio-ingress` / `env360-ingress`), matches the URI prefix
`/<project_norm>/<env_norm>/<svc_norm>/<version>` under the
lowercase-and-dash normalization, and routes to `<svc_norm>-<version>` on
the first configured port's `containerPort`, or `80` with no ports. -/
theorem render_virtual_service_external_shape (settings : Settings)
    (sd : ServiceDetails) (version_label deployment_id env_name : String)
    (hbd : sd.config.base_domain = none) (henv : env_name ≠ "") :
    (render_virtual_service_external settings sd version_label deployment_id
        env_name).hosts = [settings.BASE_DOMAIN]
    ∧ (render_virtual_service_external settings sd version_label deployment_id
        env_name).gateways =
      [(sd.config.gateway_namespace).getD "istio-ingress" ++ "/" ++
        (sd.config.gateway_name).getD "env360-ingress"]
    ∧ (render_virtual_service_external settings sd version_label deployment_id
        env_name).matchUriPref =
      "/" ++ normalize_name sd.project.name ++ "/" ++ normalize_name env_name ++
        "/" ++ normalize_name sd.service.name ++ "/" ++ version_label
    ∧ (render_virtual_service_external settings sd version_label deployment_id
        env_name).destinationHost =
      normalize_name sd.service.name ++ "-" ++ version_label
    ∧ (render_virtual_service_external settings sd version_label deployment_id
        env_name).destinationPortNumber =
      (((sd.config.ports.getD []).head?.bind (fun p => p.containerPort)).getD 80
        : Int) := by
  have htr : pyTruthy env_name = true := by
    simp [pyTruthy, henv]
  have htr2 : pyTruthy (normalize_name env_name) = true := by
    simp [pyTruthy, normalize_name_ne_empty env_name henv]
  refine ⟨?_, ?_, ?_, ?_, ?_⟩
  · simp [render_virtual_service_external, hbd, pyOrStr]
  · simp [render_virtual_service_external]
  · simp [render_virtual_service_external, htr, htr2]
  · simp [render_virtual_service_external]
  · simp only [render_virtual_service_external]
    cases hp : sd.config.ports.getD [] with
    | nil => simp
    | cons p ps => simp [hp]

/-- A service-details input with one configured port and no base-domain
override. -/
def sdC6 : ServiceDetails :=
  { project := { id := "Proj_1", name := "My Project" },
    service := { id := "sid-1", name := "My_Svc" },
    config := { ports := some [{ containerPort := some 8080 }] } }

/-- Witness for C6 at a concrete input (environment name `QA`). -/
theorem render_virtual_service_external_shape_witness :
    (render_virtual_service_external {} sdC6 "v2" "d1" "QA").hosts =
      [({} : Settings).BASE_DOMAIN]
    ∧ (render_virtual_service_external {} sdC6 "v2" "d1" "QA").gateways =
      [(sdC6.config.gateway_namespace).getD "istio-ingress" ++ "/" ++
        (sdC6.config.gateway_name).getD "env360-ingress"]
    ∧ (render_virtual_service_external {} sdC6 "v2" "d1" "QA").matchUriPref =
      "/" ++ normalize_name sdC6.project.name ++ "/" ++ normalize_name "QA" ++
        "/" ++ normalize_name sdC6.service.name ++ "/" ++ "v2"
    ∧ (render_virtual_service_external {} sdC6 "v2" "d1" "QA").destinationHost =
      normalize_name sdC6.service.name ++ "-" ++ "v2"
    ∧ (render_virtual_service_external {} sdC6 "v2" "d1" "QA").destinationPortNumber
      = (((sdC6.config.ports.getD []).head?.bind
          (fun p => p.containerPort)).getD 80 : Int) := by
  exact render_virtual_service_external_shape {} sdC6 "v2" "d1" "QA" rfl
    (by decide)

/-- One grant row extends another: same key, at least the same actions. -/
def actionsLe (p q : ResourcePermissionRow) : Prop :=
  p.user_id = q.user_id ∧ p.scope = q.scope ∧ p.resource_id = q.resource_id ∧
    ∀ a ∈ p.actions, a ∈ q.actions

/-- State `s2` differs from `s1` only by added grant rows or added actions on
existing grant rows (projects, environments and services unchanged). -/
def grantsExtended (s1 s2 : DBState) : Prop :=
  s2.projects = s1.projects ∧ s2.environments = s1.environments ∧
    s2.services = s1.services ∧
    ∀ p ∈ s1.resource_permissions, ∃ q ∈ s2.resource_permissions, actionsLe p q

/-- The ownership shortcut only reads projects, environments and services. -/
theorem ownershipShortcut_congr (s1 s2 : DBState) (uid : String)
    (sc : PermissionScope) (rid : String)
    (hp : s2.projects = s1.projects) (he : s2.environments = s1.environments)
    (hs : s2.services = s1.services) :
    ownershipShortcut s2 uid sc rid = ownershipShortcut s1 uid sc rid := by
  simp only [ownershipShortcut, findProject, findEnvironment, findService,
    hp, he, hs]

/-- `findEnvironment` only reads the environments table. -/
theorem findEnvironment_congr (s1 s2 : DBState) (rid : String)
    (he : s2.environments = s1.environments) :
    findEnvironment s2 rid = findEnvironment s1 rid := by
  simp only [findEnvironment, he]

/-- `findService` only reads the services table. -/
theorem findService_congr (s1 s2 : DBState) (rid : String)
    (hs : s2.services = s1.services) :
    findService s2 rid = findService s1 rid := by
  simp only [findService, hs]

/-- Extending grants preserves a successful `anyActionIn` over the matching
rows. -/
theorem anyActionIn_permRowsFor_mono (s1 s2 : DBState) (uid : String)
    (sc : PermissionScope) (rid : String) (act : String)
    (hperm : ∀ p ∈ s1.resource_permissions,
      ∃ q ∈ s2.resource_permissions, actionsLe p q)
    (h : anyActionIn (permRowsFor s1 uid sc rid) act = true) :
    anyActionIn (permRowsFor s2 uid sc rid) act = true := by
  rw [anyActionIn, List.any_eq_true] at h ⊢
  obtain ⟨p, hpmem, hpact⟩ := h
  rw [permRowsFor, List.mem_filter] at hpmem
  obtain ⟨q, hqmem, hq1, hq2, hq3, hq4⟩ := hperm p hpmem.1
  refine ⟨q, ?_, ?_⟩
  · rw [permRowsFor, List.mem_filter]
    refine ⟨hqmem, ?_⟩
    have := hpmem.2
    simp only [decide_eq_true_eq] at this ⊢
    exact ⟨hq1 ▸ this.1, hq2 ▸ this.2.1, hq3 ▸ this.2.2⟩
  · exact List.elem_eq_true_of_mem (hq4 _ (List.mem_of_elem_eq_true hpact))

/-- C9: permission evaluation is monotonic in the grant table.  If the
second state only adds grant rows or adds actions to existing rows (other
tables unchanged) then every evaluation that returned `true` still returns
`true`; granting an action never turns a `may(...)` result off. -/
theorem check_resource_permission_monotone (u : Caller)
    (act : PermissionAction) (sc : PermissionScope) (rid : String)
    (s1 s2 : DBState) (hext : grantsExtended s1 s2)
    (h : check_resource_permission u act sc rid s1 = .ok true) :
    check_resource_permission u act sc rid s2 = .ok true := by
  obtain ⟨hp, he, hs, hperm⟩ := hext
  cases hadm : (u.is_admin || u.is_super_admin) with
  | true => simp [check_resource_permission, hadm]
  | false =>
    rw [check_resource_permission, hadm] at h
    rw [check_resource_permission, hadm]
    simp only [Bool.false_eq_true, if_false] at h ⊢
    cases hid : u.id with
    | none => rw [hid] at h; simp at h
    | some uid =>
      rw [hid] at h
      dsimp only at h ⊢
      have hown := ownershipShortcut_congr s1 s2 uid sc rid hp he hs
      by_cases how : ownershipShortcut s1 uid sc rid = true
      · simp [how, hown]
      · have how1 : ownershipShortcut s1 uid sc rid = false :=
          Bool.eq_false_iff.mpr how
        have how2 : ownershipShortcut s2 uid sc rid = false := by
          rw [hown]; exact how1
        rw [how1] at h
        rw [how2]
        simp only [Bool.false_eq_true, if_false] at h ⊢
        by_cases hdir : anyActionIn (permRowsFor s1 uid sc rid) act.value = true
        · have hdir2 := anyActionIn_permRowsFor_mono s1 s2 uid sc rid act.value
            hperm hdir
          simp [hdir2]
        · have hdir1 : anyActionIn (permRowsFor s1 uid sc rid) act.value = false :=
            Bool.eq_false_iff.mpr hdir
          rw [hdir1] at h
          simp only [Bool.false_eq_true, if_false] at h
          by_cases hdir2 : anyActionIn (permRowsFor s2 uid sc rid) act.value = true
          · simp [hdir2]
          · have hdir2f : anyActionIn (permRowsFor s2 uid sc rid) act.value = false :=
              Bool.eq_false_iff.mpr hdir2
            rw [hdir2f]
            simp only [Bool.false_eq_true, if_false]
            cases sc with
            | project => simp at h
            | service =>
                cases hfs : findService s1 rid with
                | some svc => rw [hfs] at h; simp at h
                | none => rw [hfs] at h; simp at h
            | environment =>
                cases hfe : findEnvironment s1 rid with
                | none => rw [hfe] at h; simp at h
                | some e =>
                    rw [hfe] at h
                    rw [findEnvironment_congr s1 s2 rid he, hfe]
                    dsimp only at h ⊢
                    by_cases hpt : pyTruthy e.project_id = true
                    · rw [hpt] at h
                      simp only [if_true] at h
                      rw [hpt]
                      simp only [if_true]
                      have hin : anyActionIn
                          (permRowsFor s1 uid .project e.project_id) act.value
                          = true := by
                        simpa using h
                      have := anyActionIn_permRowsFor_mono s1 s2 uid .project
                        e.project_id act.value hperm hin
                      simp [this]
                    · have hptf : pyTruthy e.project_id = false :=
                        Bool.eq_false_iff.mpr hpt
                      rw [hptf] at h
                      simp at h


/-- A single `read` grant for `u1` on service `S`. -/
def rpC9a : ResourcePermissionRow :=
  { id := "rp", user_id := "u1", scope := .service, resource_id := "S",
    actions := ["read"] }

/-- The same grant after `write` was added. -/
def rpC9b : ResourcePermissionRow :=
  { id := "rp", user_id := "u1", scope := .service, resource_id := "S",
    actions := ["read", "write"] }

/-- A state with a single `read` grant for `u1` on service `S`. -/
def s1C9 : DBState := { resource_permissions := [rpC9a] }

/-- The same state after `write` was added to the grant. -/
def s2C9 : DBState := { resource_permissions := [rpC9b] }

/-- Witness for C9 at concrete states: the direct `read` grant keeps
evaluating to `true` after `write` is added to the row. -/
theorem check_resource_permission_monotone_witness :
    grantsExtended s1C9 s2C9
    ∧ check_resource_permission callerU1 .read .service "S" s1C9 = .ok true
    ∧ check_resource_permission callerU1 .read .service "S" s2C9 = .ok true := by
  have hext : grantsExtended s1C9 s2C9 := by
    refine ⟨rfl, rfl, rfl, ?_⟩
    intro p hp
    simp only [s1C9, List.mem_singleton] at hp
    subst hp
    refine ⟨rpC9b, ?_, rfl, rfl, rfl, ?_⟩
    · simp [s2C9]
    · intro a ha
      simp only [rpC9a, List.mem_singleton] at ha
      simp [rpC9b, ha]
  exact ⟨hext, rfl,
    check_resource_permission_monotone callerU1 .read .service "S" s1C9 s2C9
      hext rfl⟩

/-- The per-object outcome reported on success: `applied` after a clean
server-side apply, `patched` after the strategic-merge fallback. -/
def outcomeMsg (ssa : ManifestDoc → SsaResult) (d : ManifestDoc) : String :=
  match ssa d with
  | .ok => "applied " ++ docRef d
  | _ => "patched " ++ docRef d

/-- A document on which the apply loop proceeds to the next object: either
the server-side apply succeeded, or it failed with HTTP 409 and the
strategic-merge fallback succeeded. -/
def ssaGood (ssa : ManifestDoc → SsaResult) (merge : ManifestDoc → Option String)
    (d : ManifestDoc) : Prop :=
  ssa d = .ok ∨ ((∃ m, ssa d = .k8sErr (some 409) m) ∧ merge d = none)

/-- Step equation of the apply loop: a valid document whose server-side
apply succeeds is recorded as `applied` and the loop continues. -/
theorem applyLoop_cons_ok (ssa : ManifestDoc → SsaResult)
    (merge : ManifestDoc → Option String) (d : ManifestDoc)
    (l : List ManifestDoc) (applied : List String) (str mtr : List ManifestDoc)
    (hd : docValid d = true) (hssa : ssa d = .ok) :
    applyLoop ssa merge (d :: l) applied str mtr =
      applyLoop ssa merge l (applied ++ ["applied " ++ docRef d])
        (str ++ [d]) mtr := by
  simp [applyLoop, hd, hssa]

/-- Step equation of the apply loop: a valid document whose server-side
apply hits HTTP 409 and whose merge patch succeeds is recorded as `patched`
and the loop continues. -/
theorem applyLoop_cons_patched (ssa : ManifestDoc → SsaResult)
    (merge : ManifestDoc → Option String) (d : ManifestDoc)
    (l : List ManifestDoc) (applied : List String) (str mtr : List ManifestDoc)
    (hd : docValid d = true) (m : String)
    (hssa : ssa d = .k8sErr (some 409) m) (hm : merge d = none) :
    applyLoop ssa merge (d :: l) applied str mtr =
      applyLoop ssa merge l (applied ++ ["patched " ++ docRef d])
        (str ++ [d]) (mtr ++ [d]) := by
  simp [applyLoop, hd, hssa, hm]

/-- Reaching an invalid document fails the whole call, and the server-side
apply was attempted on at most the valid documents before it. -/
theorem applyLoop_stops_at_invalid (ssa : ManifestDoc → SsaResult)
    (merge : ManifestDoc → Option String) (pre : List ManifestDoc)
    (bad : ManifestDoc) (post : List ManifestDoc) :
    ∀ (applied : List String) (str mtr : List ManifestDoc),
      (∀ d ∈ pre, docValid d = true) → docValid bad = false →
      ∃ msg k,
        (applyLoop ssa merge (pre ++ bad :: post) applied str mtr).result =
          .ok (false, msg)
        ∧ (applyLoop ssa merge (pre ++ bad :: post) applied str mtr).ssaTrace =
          str ++ pre.take k := by
  induction pre with
  | nil =>
      intro applied str mtr _ hbad
      refine ⟨"Manifest missing apiVersion/kind/metadata.name: " ++ docDump bad,
        0, ?_, ?_⟩
      · simp [applyLoop, hbad]
      · simp [applyLoop, hbad]
  | cons d pre ih =>
      intro applied str mtr hval hbad
      have hd : docValid d = true := hval d (List.mem_cons_self _ _)
      have hpre : ∀ x ∈ pre, docValid x = true :=
        fun x hx => hval x (List.mem_cons_of_mem _ hx)
      rw [List.cons_append]
      cases hssa : ssa d with
      | ok =>
          rw [applyLoop_cons_ok ssa merge d _ applied str mtr hd hssa]
          obtain ⟨msg, k, h1, h2⟩ :=
            ih (applied ++ ["applied " ++ docRef d]) (str ++ [d]) mtr hpre hbad
          refine ⟨msg, k + 1, h1, ?_⟩
          rw [h2, List.take_succ_cons, List.append_assoc]
          rfl
      | k8sErr status m =>
          by_cases h409 : status = some 409
          · subst h409
            cases hm : merge d with
            | none =>
                rw [applyLoop_cons_patched ssa merge d _ applied str mtr hd m
                  hssa hm]
                obtain ⟨msg, k, h1, h2⟩ :=
                  ih (applied ++ ["patched " ++ docRef d]) (str ++ [d])
                    (mtr ++ [d]) hpre hbad
                refine ⟨msg, k + 1, h1, ?_⟩
                rw [h2, List.take_succ_cons, List.append_assoc]
                rfl
            | some m2 =>
                refine ⟨m2, 1, ?_, ?_⟩
                · simp [applyLoop, hd, hssa, hm]
                · simp [applyLoop, hd, hssa, hm]
          · refine ⟨m, 1, ?_, ?_⟩
            · simp [applyLoop, hd, hssa, h409]
            · simp [applyLoop, hd, hssa, h409]
      | otherErr m =>
          refine ⟨m, 1, ?_, ?_⟩
          · simp [applyLoop, hd, hssa]
          · simp [applyLoop, hd, hssa]

/-- When every document is valid and applies cleanly or through the 409
fallback, the loop succeeds with one `applied`/`patched` message per
document, attempts a server-side apply on each, and merge-patches exactly
the non-`ok` ones. -/
theorem applyLoop_all_good (ssa : ManifestDoc → SsaResult)
    (merge : ManifestDoc → Option String) (docs : List ManifestDoc) :
    ∀ (applied : List String) (str mtr : List ManifestDoc),
      (∀ d ∈ docs, docValid d = true) →
      (∀ d ∈ docs, ssaGood ssa merge d) →
      (applyLoop ssa merge docs applied str mtr).result =
          .ok (true,
            if (applied ++ docs.map (outcomeMsg ssa)).isEmpty then
              "No resources to apply."
            else String.intercalate "; " (applied ++ docs.map (outcomeMsg ssa)))
        ∧ (applyLoop ssa merge docs applied str mtr).ssaTrace = str ++ docs
        ∧ (applyLoop ssa merge docs applied str mtr).mergeTrace =
            mtr ++ docs.filter (fun d => ssa d ≠ SsaResult.ok) := by
  induction docs with
  | nil =>
      intro applied str mtr _ _
      refine ⟨?_, by simp [applyLoop], by simp [applyLoop]⟩
      simp [applyLoop]
  | cons d docs ih =>
      intro applied str mtr hval hgood
      have hd : docValid d = true := hval d (List.mem_cons_self _ _)
      have hdocs : ∀ x ∈ docs, docValid x = true :=
        fun x hx => hval x (List.mem_cons_of_mem _ hx)
      have hgoods : ∀ x ∈ docs, ssaGood ssa merge x :=
        fun x hx => hgood x (List.mem_cons_of_mem _ hx)
      rcases hgood d (List.mem_cons_self _ _) with hok | ⟨⟨m, h409⟩, hm⟩
      · rw [applyLoop_cons_ok ssa merge d docs applied str mtr hd hok]
        obtain ⟨h1, h2, h3⟩ :=
          ih (applied ++ ["applied " ++ docRef d]) (str ++ [d]) mtr hdocs hgoods
        refine ⟨?_, ?_, ?_⟩
        · rw [h1]
          have : outcomeMsg ssa d = "applied " ++ docRef d := by
            simp [outcomeMsg, hok]
          simp [this]
        · rw [h2, List.append_assoc]
          rfl
        · rw [h3]
          have : (ssa d ≠ SsaResult.ok) = False := by simp [hok]
          simp [List.filter_cons, hok]
      · rw [applyLoop_cons_patched ssa merge d docs applied str mtr hd m h409 hm]
        obtain ⟨h1, h2, h3⟩ :=
          ih (applied ++ ["patched " ++ docRef d]) (str ++ [d]) (mtr ++ [d])
            hdocs hgoods
        refine ⟨?_, ?_, ?_⟩
        · rw [h1]
          have : outcomeMsg ssa d = "patched " ++ docRef d := by
            simp [outcomeMsg, h409]
          simp [this]
        · rw [h2, List.append_assoc]
          rfl
        · rw [h3]
          have hne : ssa d ≠ SsaResult.ok := by simp [h409]
          simp [List.filter_cons, hne, List.append_assoc]

/-- A valid document whose server-side apply fails with a status other than
409 fails the call with that error message, and no merge patch is attempted
on it. -/
theorem applyLoop_non409_failure (ssa : ManifestDoc → SsaResult)
    (merge : ManifestDoc → Option String) (pre : List ManifestDoc)
    (d : ManifestDoc) (post : List ManifestDoc) (status : Option Int)
    (m : String) :
    ∀ (applied : List String) (str mtr : List ManifestDoc),
      (∀ x ∈ pre, docValid x = true) → (∀ x ∈ pre, ssaGood ssa merge x) →
      docValid d = true → ssa d = .k8sErr status m → status ≠ some 409 →
      (applyLoop ssa merge (pre ++ d :: post) applied str mtr).result =
          .ok (false, m)
        ∧ (applyLoop ssa merge (pre ++ d :: post) applied str mtr).ssaTrace =
            str ++ pre ++ [d]
        ∧ (applyLoop ssa merge (pre ++ d :: post) applied str mtr).mergeTrace =
            mtr ++ pre.filter (fun x => ssa x ≠ SsaResult.ok) := by
  induction pre with
  | nil =>
      intro applied str mtr _ _ hd hssa h409
      refine ⟨?_, ?_, ?_⟩ <;> simp [applyLoop, hd, hssa, h409]
  | cons x pre ih =>
      intro applied str mtr hval hgood hd hssa h409
      have hx : docValid x = true := hval x (List.mem_cons_self _ _)
      have hpre : ∀ y ∈ pre, docValid y = true :=
        fun y hy => hval y (List.mem_cons_of_mem _ hy)
      have hgoods : ∀ y ∈ pre, ssaGood ssa merge y :=
        fun y hy => hgood y (List.mem_cons_of_mem _ hy)
      rw [List.cons_append]
      rcases hgood x (List.mem_cons_self _ _) with hok | ⟨⟨mx, h409x⟩, hmx⟩
      · rw [applyLoop_cons_ok ssa merge x _ applied str mtr hx hok]
        obtain ⟨h1, h2, h3⟩ :=
          ih (applied ++ ["applied " ++ docRef x]) (str ++ [x]) mtr hpre
            hgoods hd hssa h409
        refine ⟨h1, ?_, ?_⟩
        · rw [h2]
          simp [List.append_assoc]
        · rw [h3]
          simp [List.filter_cons, hok]
      · rw [applyLoop_cons_patched ssa merge x _ applied str mtr hx mx h409x hmx]
        obtain ⟨h1, h2, h3⟩ :=
          ih (applied ++ ["patched " ++ docRef x]) (str ++ [x]) (mtr ++ [x])
            hpre hgoods hd hssa h409
        refine ⟨h1, ?_, ?_⟩
        · rw [h2]
          simp [List.append_assoc]
        · rw [h3]
          have hne : ssa x ≠ SsaResult.ok := by simp [h409x]
          simp [List.filter_cons, hne, List.append_assoc]

/-- The mapping documents of a YAML stream. -/
def yamlDocOf : YamlStreamDoc → Option ManifestDoc
  | .yMap d => some d
  | _ => none

/-- A YAML stream without non-mapping documents normalizes to its mapping
documents, in order (falsy documents skipped). -/
theorem ensure_ofStr_clean (ys : List YamlStreamDoc)
    (h : ∀ y ∈ ys, y ≠ YamlStreamDoc.yOther) :
    ensure_list_of_dicts (.ofStr ys) = .ok (ys.filterMap yamlDocOf) := by
  induction ys with
  | nil => rfl
  | cons y ys ih =>
      have hys : ∀ x ∈ ys, x ≠ YamlStreamDoc.yOther :=
        fun x hx => h x (List.mem_cons_of_mem _ hx)
      have ihs := ih hys
      simp only [ensure_list_of_dicts] at ihs ⊢
      cases y with
      | yNull => simpa [collectYamlDocs, yamlDocOf] using ihs
      | yMap d =>
          simp only [collectYamlDocs, List.filterMap_cons,
            yamlDocOf]
          rw [ihs]
          rfl
      | yOther => exact absurd rfl (h _ (List.mem_cons_self _ _))

/-- C7: `apply_manifest` normalizes its dict, list, or parsed-YAML-stream
input to a list of objects; an object missing `apiVersion`, `kind` or
`metadata.name` fails the call (`ok = false`) with no server-side apply
attempted on it or on any later object; each valid object gets a server-side
apply, with the strategic-merge fallback exactly on an HTTP 409 failure, and
the success message reports `applied` versus `patched` per object. -/
theorem apply_manifest_contract (ssa : ManifestDoc → SsaResult)
    (merge : ManifestDoc → Option String) :
    (∀ d, ensure_list_of_dicts (.ofDict d) = .ok [d])
    ∧ (∀ ds, ensure_list_of_dicts (.ofList ds) = .ok ds)
    ∧ (∀ ys, (∀ y ∈ ys, y ≠ YamlStreamDoc.yOther) →
        ensure_list_of_dicts (.ofStr ys) = .ok (ys.filterMap yamlDocOf))
    ∧ (∀ pre bad post, (∀ d ∈ pre, docValid d = true) → docValid bad = false →
        ∃ msg k,
          (apply_manifest ssa merge (.ofList (pre ++ bad :: post))).result =
            .ok (false, msg)
          ∧ (apply_manifest ssa merge (.ofList (pre ++ bad :: post))).ssaTrace =
            pre.take k)
    ∧ (∀ docs, (∀ d ∈ docs, docValid d = true) →
        (∀ d ∈ docs, ssaGood ssa merge d) →
        (apply_manifest ssa merge (.ofList docs)).result =
            .ok (true,
              if docs.isEmpty then "No resources to apply."
              else String.intercalate "; " (docs.map (outcomeMsg ssa)))
          ∧ (apply_manifest ssa merge (.ofList docs)).ssaTrace = docs
          ∧ (apply_manifest ssa merge (.ofList docs)).mergeTrace =
              docs.filter (fun d => ssa d ≠ SsaResult.ok))
    ∧ (∀ pre d post status m, (∀ x ∈ pre, docValid x = true) →
        (∀ x ∈ pre, ssaGood ssa merge x) → docValid d = true →
        ssa d = .k8sErr status m → status ≠ some 409 →
        (apply_manifest ssa merge (.ofList (pre ++ d :: post))).result =
            .ok (false, m)
          ∧ (apply_manifest ssa merge (.ofList (pre ++ d :: post))).mergeTrace =
              pre.filter (fun x => ssa x ≠ SsaResult.ok)) := by
  have hlist : ∀ ds : List ManifestDoc,
      apply_manifest ssa merge (.ofList ds) = applyLoop ssa merge ds [] [] [] :=
    fun ds => rfl
  refine ⟨fun d => rfl, fun ds => rfl, ensure_ofStr_clean, ?_, ?_, ?_⟩
  · intro pre bad post hval hbad
    rw [hlist]
    exact applyLoop_stops_at_invalid ssa merge pre bad post [] [] [] hval hbad
  · intro docs hval hgood
    rw [hlist]
    obtain ⟨h1, h2, h3⟩ := applyLoop_all_good ssa merge docs [] [] [] hval hgood
    refine ⟨?_, by simpa using h2, by simpa using h3⟩
    rw [h1]
    cases docs with
    | nil => rfl
    | cons d docs => simp
  · intro pre d post status m hval hgood hd hssa h409
    rw [hlist]
    obtain ⟨h1, _, h3⟩ := applyLoop_non409_failure ssa merge pre d post status
      m [] [] [] hval hgood hd hssa h409
    exact ⟨h1, by simpa using h3⟩

/-- A valid Namespace document. -/
def docA : ManifestDoc :=
  { apiVersion := some "v1", kind := some "Namespace",
    metadata := some { name := some "a" } }

/-- A valid namespaced Service document. -/
def docB : ManifestDoc :=
  { apiVersion := some "v1", kind := some "Service",
    metadata := some { name := some "b", ns := some "n" } }

/-- A document with no `metadata.name`. -/
def docBad : ManifestDoc :=
  { apiVersion := some "v1", kind := some "Service",
    metadata := some { name := none } }

/-- A cluster stub: Namespace applies cleanly, anything else hits a 409
field-manager conflict. -/
def ssaC7 : ManifestDoc → SsaResult :=
  fun d => if d.kind = some "Namespace" then .ok
    else .k8sErr (some 409) "conflict"

/-- A merge-patch stub that always succeeds. -/
def mergeC7 : ManifestDoc → Option String := fun _ => none

/-- Witness for C7 at concrete documents: the invalid middle document fails
the call with only the first document applied, and a clean run reports
`applied` then `patched` outcomes. -/
theorem apply_manifest_contract_witness :
    (∃ msg k,
      (apply_manifest ssaC7 mergeC7
          (.ofList ([docA] ++ docBad :: [docB]))).result = .ok (false, msg)
      ∧ (apply_manifest ssaC7 mergeC7
          (.ofList ([docA] ++ docBad :: [docB]))).ssaTrace = [docA].take k)
    ∧ ((apply_manifest ssaC7 mergeC7 (.ofList [docA, docB])).result =
        .ok (true,
          if ([docA, docB] : List ManifestDoc).isEmpty then
            "No resources to apply."
          else String.intercalate "; " ([docA, docB].map (outcomeMsg ssaC7)))
      ∧ (apply_manifest ssaC7 mergeC7 (.ofList [docA, docB])).ssaTrace =
          [docA, docB]
      ∧ (apply_manifest ssaC7 mergeC7 (.ofList [docA, docB])).mergeTrace =
          [docA, docB].filter (fun d => ssaC7 d ≠ SsaResult.ok)) := by
  refine ⟨?_, ?_⟩
  · exact (apply_manifest_contract ssaC7 mergeC7).2.2.2.1 [docA] docBad [docB]
      (by decide) (by decide)
  · refine (apply_manifest_contract ssaC7 mergeC7).2.2.2.2.1 [docA, docB]
      (by decide) ?_
    intro d hd
    simp only [List.mem_cons, List.not_mem_nil, or_false] at hd
    rcases hd with rfl | rfl
    · exact Or.inl rfl
    · exact Or.inr ⟨⟨"conflict", rfl⟩, rfl⟩

/-- If some listener entry fails its value-parsing prelude, the whole
listener loop raises. -/
theorem gatewayListenersSpec_error (settings : Settings)
    (jparse : String → Option Json) (env_name project_name : String)
    (l : List DomainInfoEntry)
    (h : ∃ e ∈ l, ∃ err, gatewayListenerSegs jparse e = .error err) :
    ∃ err, gatewayListenersSpec settings jparse env_name project_name l =
      .error err := by
  induction l with
  | nil => simp at h
  | cons e l ih =>
      cases hseg : gatewayListenerSegs jparse e with
      | error err =>
          refine ⟨err, ?_⟩
          simp only [gatewayListenersSpec, hseg]
          rfl
      | ok segs =>
          obtain ⟨x, hx, err, hxe⟩ := h
          rcases List.mem_cons.mp hx with rfl | hx
          · rw [hseg] at hxe
            cases hxe
          · obtain ⟨err2, h2⟩ := ih ⟨x, hx, err, hxe⟩
            refine ⟨err2, ?_⟩
            obtain ⟨s1, s2⟩ := segs
            simp only [gatewayListenersSpec, hseg, h2]
            rfl

/-- A failing listener entry makes `render_env_manifests` raise. -/
theorem render_env_manifests_error (settings : Settings)
    (jparse : String → Option Json) (details : EnvDetails)
    (h : ∃ e ∈ details.domain_info_entries, ∃ err,
      gatewayListenerSegs jparse e = .error err) :
    ∃ err, render_env_manifests settings jparse details = .error err := by
  obtain ⟨err2, h2⟩ := gatewayListenersSpec_error settings jparse
    details.environment_name details.project_name details.domain_info_entries h
  refine ⟨err2, ?_⟩
  simp only [render_env_manifests, render_gateway_manifest]
  rw [h2]
  rfl

/-- C10: the manifest-rendering step of `setup_env_subdomain` is not total
over an environment's config rows.  `save_domain_info` returns **every**
`environment_configs` row of the environment (any key) as a listener input,
and `render_gateway_manifest` runs each row's string value through
`json.loads` with no error handling — so whenever the state it returns holds
a row of the environment whose value is a string that does not parse,
`render_env_manifests` raises and the workflow step fails. -/
theorem setup_env_subdomain_render_fails_on_bad_config (settings : Settings)
    (jparse : String → Option Json) (st st2 : DBState)
    (environment_id : String) (details : EnvDetails)
    (hsave : save_domain_info st environment_id = .ok (st2, details))
    (hbad : ∃ r ∈ st2.environment_configs, r.environment_id = environment_id
      ∧ ∃ s, r.value = some s ∧ jparse s = none) :
    details.domain_info_entries =
      (st2.environment_configs.filter
          (fun c => c.environment_id = environment_id)).map
        (fun c => ({ key := c.key, value := c.value,
                     config_data := c.config_data } : DomainInfoEntry))
    ∧ ∃ err, render_env_manifests settings jparse details = .error err := by
  unfold save_domain_info at hsave
  split at hsave
  · cases hsave
  · rename_i env henv
    split at hsave
    · cases hsave
    · rename_i project hproj
      dsimp only at hsave
      simp only [pure, Except.pure] at hsave
      rw [Except.ok.injEq, Prod.mk.injEq] at hsave
      obtain ⟨hst2, hdet⟩ := hsave
      subst hst2
      subst hdet
      refine ⟨rfl, ?_⟩
      obtain ⟨r, hr, hrid, s, hval, hparse⟩ := hbad
      apply render_env_manifests_error
      refine ⟨{ key := r.key, value := r.value, config_data := r.config_data },
        ?_, ?_⟩
      · exact List.mem_map.mpr
          ⟨r, List.mem_filter.mpr ⟨hr, by simpa using hrid⟩, rfl⟩
      · refine ⟨"json.decoder.JSONDecodeError in json.loads: " ++ s, ?_⟩
        simp [gatewayListenerSegs, hval, hparse]

/-- An environment with one config row (key `other`) whose value is not
valid JSON. -/
def stC10 : DBState :=
  { projects := [{ id := "P10", name := "proj", owner_id := some "o" }],
    environments :=
      [{ id := "E10", name := "qa", project_id := "P10",
         cluster_id := some "K" }],
    environment_configs :=
      [{ environment_id := "E10", key := "other", value := some "not json" }] }

/-- Witness for C10 at `stC10`: the `other` row survives `save_domain_info`
and makes `render_env_manifests` raise. -/
theorem setup_env_subdomain_render_fails_witness :
    ∃ st2 details,
      save_domain_info stC10 "E10" = .ok (st2, details)
      ∧ (∃ r ∈ st2.environment_configs, r.environment_id = "E10"
          ∧ ∃ s, r.value = some s ∧ (fun _ => (none : Option Json)) s = none)
      ∧ details.domain_info_entries =
          (st2.environment_configs.filter
              (fun c => c.environment_id = "E10")).map
            (fun c => ({ key := c.key, value := c.value,
                         config_data := c.config_data } : DomainInfoEntry))
      ∧ ∃ err, render_env_manifests {} (fun _ => none) details = .error err := by
  refine ⟨_, _, rfl, ?_, ?_, ?_⟩
  case _ =>
    exact ⟨{ environment_id := "E10", key := "other",
             value := some "not json" }, List.Mem.head _, rfl, "not json",
           rfl, rfl⟩
  all_goals {
    first
    | exact (setup_env_subdomain_render_fails_on_bad_config {} (fun _ => none)
        stC10 _ "E10" _ rfl
        ⟨{ environment_id := "E10", key := "other", value := some "not json" },
         List.Mem.head _, rfl, "not json", rfl, rfl⟩).1
    | exact (setup_env_subdomain_render_fails_on_bad_config {} (fun _ => none)
        stC10 _ "E10" _ rfl
        ⟨{ environment_id := "E10", key := "other", value := some "not json" },
         List.Mem.head _, rfl, "not json", rfl, rfl⟩).2 }

end Env360
